import Mathlib

/-!
# Verification of the AI-Site content pipeline against its specification

This file gives a shallow embedding, in Lean 4, of the core logic of the
AI-Site content-generation pipeline (Collector → Researcher → Generator →
Publisher over a JSON candidate store) and proves or refutes the stated
properties of its specification.

Modelling conventions:
* JavaScript numbers used as timestamps are modelled as `Int` milliseconds;
  an ISO string that may be absent is `Option Int` (`none` = absent).
  Records whose date strings are unparseable (`NaN` timestamps) are outside
  the model where noted, since `Array.prototype.sort` with the resulting
  inconsistent comparator is implementation-defined in JS.
* External capabilities (YouTube API, OpenAI, Google search, file system)
  are passed in as explicit data or functions; `Except String` models a
  thrown exception.
* JS `Array.prototype.sort` (a stable sort) is modelled by
  `List.insertionSort`, which is stable for the same total preorder.
* JS falsy checks on strings (`s || fallback`) are modelled by comparison
  with the empty string; optional string fields use `""` for absent where
  the source only ever checks truthiness.
* Prose-only fields that no control flow reads (prompt text, log lines,
  metric counters) are omitted from the data model.
-/

namespace AISite

/-! ## JavaScript numeric primitives -/

/-- JS `ToInt32`: the result of `x & 0xffffffff` (a signed 32-bit fold). -/
def jsToInt32 (i : Int) : Int :=
  let m := i % 4294967296
  if m < 2147483648 then m else m - 4294967296

/-! ## Character-list helpers

Core `String.splitOn`, `String.split` and `String.trim` use well-founded
recursion and do not reduce inside the kernel, so the JS string operations
are modelled by structural functions over `String.data`. -/

/-- JS-like split of a character list at separator characters.  Runs of
separators produce empty pieces, which every caller discards. -/
def splitChars (p : Char → Bool) : List Char → List (List Char)
  | [] => [[]]
  | c :: cs =>
    if p c then [] :: splitChars p cs
    else
      match splitChars p cs with
      | [] => [[c]]
      | w :: ws => (c :: w) :: ws

/-- Drop leading and trailing whitespace (JS `trim`). -/
def trimChars (cs : List Char) : List Char :=
  ((cs.dropWhile Char.isWhitespace).reverse.dropWhile Char.isWhitespace).reverse

/-- Join words with single hyphens. -/
def joinHyphen : List (List Char) → List Char
  | [] => []
  | [w] => w
  | w :: ws => w ++ '-' :: joinHyphen ws

/-! ## Deterministic image pick (generator/services/imageSelector.js)

`deterministicPickFromPool` translates the source hash loop
`hash = (hash * 31 + normalizedSeed.charCodeAt(i)) & 0xffffffff` followed by
`Math.abs(hash) % pool.length`.  Characters are taken as their Unicode code
points (`Char.toNat`), which coincides with JS `charCodeAt` on the BMP. -/

/-- One step of the source hash loop: `hash = (hash * 31 + code) & 0xffffffff`. -/
def hashStep (h : Int) (c : Nat) : Int :=
  jsToInt32 (h * 31 + c)

/-- The source hash of a seed string (signed 32-bit accumulation). -/
def jsHash (s : String) : Int :=
  s.data.foldl (fun h c => hashStep h c.toNat) 0

/-- Source translation of `deterministicPickFromPool(pool, seed)`:
`null` for an empty pool, otherwise `pool[Math.abs(hash) % pool.length]`
where an empty seed falls back to the default seed string. -/
def deterministicPickFromPool (pool : List α) (seed : String) : Option α :=
  if pool.isEmpty then none
  else
    let normalizedSeed := if seed = "" then "ai-info-blog" else seed
    let index := (jsHash normalizedSeed).natAbs % pool.length
    pool.get? index

/-- Modelled from the spec (reference algorithm for the deterministic image
selection): the hash is accumulated as `(hash * 31 + charCode) mod 2^32`
(kept non-negative), then folded to a signed 32-bit value, and the index is
`|hash| mod pool.length`. -/
def specHashUnsigned (s : String) : Nat :=
  s.data.foldl (fun h c => (h * 31 + c.toNat) % 4294967296) 0

/-- Modelled from the spec: fold a value in `[0, 2^32)` to its signed 32-bit
reading. -/
def specFoldSigned (u : Nat) : Int :=
  if u < 2147483648 then (u : Int) else (u : Int) - 4294967296

/-- Modelled from the spec: the reference pick index `|hash| mod n`. -/
def specPickIndex (s : String) (n : Nat) : Nat :=
  (specFoldSigned (specHashUnsigned s)).natAbs % n

/-! ## Data model (§3 of the spec)

Statuses follow the authoritative 4-stage model; the legacy `pending`
status of the superseded 3-stage implementation is not modelled. -/

/-- Candidate lifecycle status. -/
inductive Status
  | collected
  | researched
  | generated
  | published
  | skipped
  | failed
deriving DecidableEq, Repr

/-- Source descriptor of an originating channel (collector `normalizeSource`). -/
structure Source where
  platform : String
  name : String
  channelId : Option String
  url : Option String
  focus : List String
deriving DecidableEq, Repr

/-- Video metadata snapshot captured at collection time. -/
structure Video where
  id : String
  title : String
  description : String
  thumbnail : Option String
  publishedAt : Option Int
  url : String
deriving DecidableEq, Repr

/-- Structured search query record set by the Researcher. -/
structure SearchQuery where
  original : String
  extracted : String
  method : String
deriving DecidableEq, Repr

/-- One entry of `searchSummaries` (researcher summaryBuilder output shape). -/
structure SummaryEntry where
  title : String
  url : Option String
  snippet : String
  summary : String
deriving DecidableEq, Repr

/-- Topic-key extraction metadata persisted by the Researcher (prose-only
fields such as `product`, `feature`, `confidence`, `reasoning` are omitted). -/
structure TopicKeyMeta where
  method : String
  raw : String
  error : Option String
deriving DecidableEq, Repr

/-- The image record returned by `selectArticleImage`; string fields use
`""` for JS `null`. -/
structure SelectedImage where
  key : String
  src : String
  alt : String
  label : String
  caption : String
  category : String
deriving DecidableEq, Repr

/-- One entry of the normalized article image pool (imageSelector.js,
output shape of `buildArticleImagePool`); `""` models JS `null`. -/
structure ArticleImage where
  key : String
  src : String
  alt : String
  label : String
  description : String
  category : String
  topics : List String
  isDefault : Bool
deriving DecidableEq, Repr

/-- A tag value: either a plain string (old form) or a normalized object. -/
inductive Tag
  | str (value : String)
  | obj (slug : String) (label : String) (category : String)
deriving DecidableEq, Repr

/-- One tracked candidate record of the JSON store. -/
structure Candidate where
  id : String
  source : Source
  video : Video
  status : Status
  createdAt : Int
  updatedAt : Int
  topicKey : String
  notes : String
  searchQuery : Option SearchQuery
  topicKeyMeta : Option TopicKeyMeta
  searchSummaries : List SummaryEntry
  researchedAt : Option Int
  generatedAt : Option Int
  skipReason : Option String
  failReason : Option String
  errorMessage : Option String
  postDate : Option Int
  slug : Option String
  outputFile : Option String
  image : Option SelectedImage
  imageKey : Option String
deriving DecidableEq, Repr

/-- A public Post Record of `data/posts.json`.  `date` is the parsed
timestamp of the record's date string (date-only ISO strings parse to the
same instant under both `new Date(d)` and `new Date(d + "T00:00:00Z")`);
`slug = ""` models an absent slug. -/
structure Post where
  title : String
  date : Int
  summary : String
  tags : List Tag
  url : String
  slug : String
  publishedAt : Option Int
  image : Option SelectedImage
deriving DecidableEq, Repr

/-- A Topic History entry.  For the two date fields, the outer `Option` is
JS truthiness (`none` = absent/empty) and the inner `Option` is parse
success (`none` = present but unparseable, i.e. a `NaN` timestamp). -/
structure TopicEntry where
  topicKey : String
  firstSeen : Option (Option Int)
  lastPublishedAt : Option (Option Int)
  sourceName : String
  videoTitle : String
  draftUrl : String
deriving DecidableEq, Repr

/-- A structured article draft returned by the text-generation capability
(prose `sections` are omitted; no claim reads them).  `slug = ""` models
the absent slug of a fresh draft. -/
structure Article where
  title : String
  summary : String
  intro : String
  conclusion : String
  tags : List Tag
  slug : String
deriving DecidableEq, Repr

/-! ## slugify (lib/slugify) -/

/-- Modelled from the spec: the repository's `lib/slugify` module is not
under `src/` (only its call sites are).  Per the spec a slug is a
normalized identifier derived from a title: lowercased alphanumeric runs
joined by single hyphens, with a fallback value used when nothing remains. -/
def slugify (title : String) (fallback : String) : String :=
  let mapped := title.data.map (fun c => if c.isAlphanum then c.toLower else ' ')
  let words := (splitChars (fun c => c = ' ') mapped).filter (fun w => w ≠ [])
  let core := String.mk (joinHyphen words)
  if core = "" then fallback else core

/-! ## Token normalization (generator/services/tokenUtils.js) -/

/-- Collapse whitespace runs to single spaces (JS `replace(/\s+/g, " ")`). -/
def collapseSpacesAux : List Char → Bool → List Char
  | [], _ => []
  | c :: cs, prevSpace =>
    if c.isWhitespace then
      if prevSpace then collapseSpacesAux cs true else ' ' :: collapseSpacesAux cs true
    else c :: collapseSpacesAux cs false

/-- Source translation of `normalizeTagToken`: stringify, NFKC-normalize,
trim, lowercase, collapse inner whitespace.  NFKC normalization is modelled
as the identity; `""` stands for JS `null`/`undefined` (both give `""`). -/
def normalizeTagToken (value : String) : String :=
  String.mk (collapseSpacesAux ((trimChars value.data).map Char.toLower) false)

/-! ## Image token gathering and selection (imageSelector.js) -/

/-- Add a normalized token to the token set (JS `Set.add`; insertion order
kept, duplicates and empty tokens dropped). -/
def addToken (tokens : List String) (value : String) : List String :=
  let normalized := normalizeTagToken value
  if normalized = "" then tokens
  else if normalized ∈ tokens then tokens else tokens ++ [normalized]

/-- Split a topic key or slug on `-`/`_` runs (JS `split(/[-_]+/)`; empty
pieces are dropped later by `addToken`). -/
def splitKeyParts (s : String) : List String :=
  (splitChars (fun c => decide (c = '-' ∨ c = '_')) s.data).map String.mk

/-- Split a title on whitespace and separator punctuation
(JS `split(/[\s・／/、。:+\-]+/)`), trimming each token. -/
def splitTitleParts (s : String) : List String :=
  ((splitChars (fun c =>
      c.isWhitespace || decide (c = '・' ∨ c = '／' ∨ c = '/' ∨ c = '、' ∨ c = '。' ∨
        c = ':' ∨ c = '+' ∨ c = '-')) s.data).map trimChars).map String.mk

/-- Tokens contributed by one tag (string form or object form). -/
def tagTokens (tokens : List String) : Tag → List String
  | Tag.str value => addToken tokens value
  | Tag.obj slug label category => addToken (addToken (addToken tokens slug) label) category

/-- Tokens contributed by a title (JS `injectFromTitle`). -/
def titleTokens (tokens : List String) (title : String) : List String :=
  if title = "" then tokens
  else (splitTitleParts title).foldl addToken tokens

/-- Source translation of `gatherImageTokens(article, candidate)`. -/
def gatherImageTokens (article : Article) (candidate : Candidate) : List String :=
  let t0 : List String := []
  let t1 := article.tags.foldl tagTokens t0
  let t2 := candidate.source.focus.foldl addToken t1
  let t3 :=
    if candidate.topicKey = "" then t2
    else (splitKeyParts candidate.topicKey).foldl addToken (addToken t2 candidate.topicKey)
  let t4 :=
    if article.slug = "" then t3
    else (splitKeyParts article.slug).foldl addToken (addToken t3 article.slug)
  let t5 := titleTokens t4 article.title
  titleTokens t5 candidate.video.title

/-- First non-empty string of a JS `||` chain, with a final default. -/
def firstNonEmpty : List String → String → String
  | [], d => d
  | s :: rest, d => if s = "" then firstNonEmpty rest d else s

/-- The default image of the pool (`createImageSelector`): the first entry
flagged `isDefault`, else the first entry, else none. -/
def defaultArticleImage (pool : List ArticleImage) : Option ArticleImage :=
  match pool.find? (fun item => item.isDefault) with
  | some i => some i
  | none => pool.head?

/-- Source translation of `selectArticleImage(article, candidate)` with the
pool (read from the manifest at service construction) passed explicitly. -/
def selectArticleImage (pool : List ArticleImage) (article : Article)
    (candidate : Candidate) : Option SelectedImage :=
  if pool.length = 0 then none
  else
    let tokens := gatherImageTokens article candidate
    let matched := pool.filter (fun entry =>
      entry.topics.any (fun topic => topic ∈ tokens) ∨
        (entry.category ≠ "" ∧ entry.category ∈ tokens))
    let seed := firstNonEmpty
      [candidate.topicKey, article.slug, article.title, candidate.id] "ai-info"
    let pickPool := if matched.length > 0 then matched else pool
    let picked :=
      match deterministicPickFromPool pickPool seed with
      | some p => some p
      | none => defaultArticleImage pool
    match picked with
    | none => none
    | some p =>
      some { key := p.key, src := p.src, alt := p.alt, label := p.label,
             caption := if p.description ≠ "" then p.description else p.label,
             category := p.category }

/-! ## Configuration constants (config/constants.js) -/

/-- `COLLECTOR.MAX_PER_CHANNEL`. -/
def MAX_PER_CHANNEL : Nat := 2

/-- `COLLECTOR.VIDEO_LOOKBACK_DAYS`. -/
def VIDEO_LOOKBACK_DAYS : Nat := 7

/-- `COLLECTOR.CLEANUP_PROCESSED_DAYS`. -/
def CLEANUP_PROCESSED_DAYS : Nat := 14

/-- `COLLECTOR.MAX_PENDING_CANDIDATES`. -/
def MAX_PENDING_CANDIDATES : Nat := 30

/-- `GENERATOR.DEDUPE_WINDOW_DAYS`. -/
def DEDUPE_WINDOW_DAYS : Nat := 5

/-- `RESEARCHER.GOOGLE_TOP_LIMIT`. -/
def GOOGLE_TOP_LIMIT : Nat := 3

/-- Milliseconds per day (`24 * 60 * 60 * 1000`). -/
def dayMs : Int := 86400000

/-! ## Collector (automation/collector/index.js)

The YouTube Data API call is an external capability: each source comes
paired with its fetch outcome.  `quotaSkip` models the `null` return of
`fetchChannelVideos` on a quota-exceeded 403 response, `apiError` a thrown
error, `ok` the parsed video list. -/

/-- Outcome of the video-listing call for one source. -/
inductive FetchResult
  | quotaSkip
  | apiError (message : String)
  | ok (videos : List Video)
deriving DecidableEq, Repr

/-- One recorded per-source error of a collector run. -/
structure CollectorError where
  source : String
  message : String
deriving DecidableEq, Repr

/-- Summary object returned by `runCollector` (metrics/log fields omitted). -/
structure CollectorResult where
  checkedSources : Nat
  newCandidates : Nat
  totalCandidates : Nat
  errors : List CollectorError
deriving DecidableEq, Repr

/-- `createChannelUrl(channelId)`. -/
def createChannelUrl (channelId : Option String) : Option String :=
  match channelId with
  | some cid => some ("https://www.youtube.com/channel/" ++ cid)
  | none => none

/-- Source translation of `normalizeSource`. -/
def normalizeSource (s : Source) : Source :=
  { platform := if s.platform = "" then "YouTube" else s.platform,
    name := if s.name = "" then "Unknown Channel" else s.name,
    channelId := s.channelId,
    url := match s.url with
           | some u => some u
           | none => createChannelUrl s.channelId,
    focus := s.focus }

/-- `withinWindow(publishedAt)` with the current time passed explicitly. -/
def withinWindow (now : Int) (publishedAt : Option Int) : Bool :=
  match publishedAt with
  | none => false
  | some t => now - t ≤ (VIDEO_LOOKBACK_DAYS : Int) * dayMs

/-- Descending order on video publish time (`publishedAt || 0`). -/
def videoDesc (a b : Video) : Prop :=
  b.publishedAt.getD 0 ≤ a.publishedAt.getD 0

instance : DecidableRel videoDesc := fun a b => Int.decLe _ _

instance : IsTotal Video videoDesc :=
  ⟨fun a b => le_total (b.publishedAt.getD 0) (a.publishedAt.getD 0)⟩

instance : IsTrans Video videoDesc :=
  ⟨fun _ _ _ h1 h2 => le_trans h2 h1⟩

/-- Descending order on `candidate.video.publishedAt || 0`, used for the
store ordering after collection. -/
def candidateVideoDesc (a b : Candidate) : Prop :=
  b.video.publishedAt.getD 0 ≤ a.video.publishedAt.getD 0

instance : DecidableRel candidateVideoDesc := fun a b => Int.decLe _ _

instance : IsTotal Candidate candidateVideoDesc :=
  ⟨fun a b => le_total (b.video.publishedAt.getD 0) (a.video.publishedAt.getD 0)⟩

instance : IsTrans Candidate candidateVideoDesc :=
  ⟨fun _ _ _ h1 h2 => le_trans h2 h1⟩

/-- Descending order on `candidate.createdAt || 0`, used by the pending cap. -/
def createdDesc (a b : Candidate) : Prop :=
  b.createdAt ≤ a.createdAt

instance : DecidableRel createdDesc := fun a b => Int.decLe _ _

instance : IsTotal Candidate createdDesc :=
  ⟨fun a b => le_total b.createdAt a.createdAt⟩

instance : IsTrans Candidate createdDesc :=
  ⟨fun _ _ _ h1 h2 => le_trans h2 h1⟩

/-- The fresh candidate record pushed for a new video. -/
def mkCollectedCandidate (src : Source) (v : Video) (now : Int) : Candidate :=
  { id := "yt-" ++ v.id,
    source := src,
    video := v,
    status := Status.collected,
    createdAt := now,
    updatedAt := now,
    topicKey := slugify v.title "",
    notes := "YouTube Data API: " ++ src.name ++ " の最新動画",
    searchQuery := none,
    topicKeyMeta := none,
    searchSummaries := [],
    researchedAt := none,
    generatedAt := none,
    skipReason := none,
    failReason := none,
    errorMessage := none,
    postDate := none,
    slug := none,
    outputFile := none,
    image := none,
    imageKey := none }

/-- The per-source insertion loop (`for video of freshVideos`): stop at
`MAX_PER_CHANNEL`, skip ids already present, push the rest as `collected`.
Also threads the global new-candidate counter. -/
def addVideosForChannel (src : Source) (now : Int) :
    List Video → List Candidate → Nat → Nat → (List Candidate × Nat)
  | [], acc, _, newCount => (acc, newCount)
  | v :: rest, acc, added, newCount =>
    if MAX_PER_CHANNEL ≤ added then (acc, newCount)
    else
      let candidateId := "yt-" ++ v.id
      if acc.any (fun c => c.id = candidateId) then
        addVideosForChannel src now rest acc added newCount
      else
        addVideosForChannel src now rest
          (acc ++ [mkCollectedCandidate src v now]) (added + 1) (newCount + 1)

/-- The collector's per-source loop: record an error for a missing
`channelId`, skip silently on quota exhaustion, record an error for a
thrown API error (the surrounding `try` catches it), otherwise filter to
the lookback window, sort newest first and insert. -/
def collectSources (now : Int) :
    List (Source × FetchResult) → List Candidate → List CollectorError → Nat →
      (List Candidate × List CollectorError × Nat)
  | [], acc, errors, newCount => (acc, errors, newCount)
  | (src, fetch) :: rest, acc, errors, newCount =>
    match src.channelId with
    | none =>
      collectSources now rest acc
        (errors ++ [{ source := src.name, message := "channelId is missing" }]) newCount
    | some _ =>
      match fetch with
      | FetchResult.quotaSkip => collectSources now rest acc errors newCount
      | FetchResult.apiError msg =>
        collectSources now rest acc
          (errors ++ [{ source := src.name, message := msg }]) newCount
      | FetchResult.ok videos =>
        let freshVideos :=
          (videos.filter (fun v => withinWindow now v.publishedAt)).insertionSort videoDesc
        let inserted := addVideosForChannel src now freshVideos acc 0 newCount
        collectSources now rest inserted.1 errors inserted.2

/-- Whether a candidate is in a non-terminal (`collected`/`researched`) state. -/
def isActiveStatus : Status → Bool
  | Status.collected => true
  | Status.researched => true
  | _ => false

/-- The retention cleanup: drop terminal candidates whose `updatedAt`
(falling back to `createdAt`, both modelled by the single `updatedAt`
field, which the source always sets) is older than the cleanup window. -/
def cleanupProcessed (now : Int) (l : List Candidate) : List Candidate :=
  let cleanupCutoff := now - (CLEANUP_PROCESSED_DAYS : Int) * dayMs
  l.filter (fun c => isActiveStatus c.status || decide (c.updatedAt ≥ cleanupCutoff))

/-- The pending cap: if more than `MAX_PENDING_CANDIDATES` candidates are
active, keep only the most recently created ones and re-sort the store by
video publish time. -/
def capPending (l : List Candidate) : List Candidate :=
  let activeCandidates := l.filter (fun c => isActiveStatus c.status)
  let processedCandidates := l.filter (fun c => ! isActiveStatus c.status)
  if MAX_PENDING_CANDIDATES < activeCandidates.length then
    let limitedActive :=
      (activeCandidates.insertionSort createdDesc).take MAX_PENDING_CANDIDATES
    (processedCandidates ++ limitedActive).insertionSort candidateVideoDesc
  else l

/-- Source translation of `runCollector`: fatal preconditions, per-source
ingestion, store re-sort, retention cleanup, pending cap.  Returns the new
store contents together with the stage result. -/
def runCollector (apiKeyPresent : Bool) (sources : List (Source × FetchResult))
    (existing : List Candidate) (now : Int) :
    Except String (List Candidate × CollectorResult) :=
  if ¬ apiKeyPresent then
    Except.error "YOUTUBE_API_KEY が設定されていません。"
  else if sources.isEmpty then
    Except.error "data/sources.json に監視対象が設定されていません。"
  else
    let step := collectSources now
      (sources.map (fun p => (normalizeSource p.1, p.2))) existing [] 0
    let sorted := step.1.insertionSort candidateVideoDesc
    let cleaned := cleanupProcessed now sorted
    let final := capPending cleaned
    Except.ok (final,
      { checkedSources := sources.length,
        newCandidates := step.2.2,
        totalCandidates := final.length,
        errors := step.2.1 })

/-- The errors list of a collector outcome (empty for a hard failure). -/
def collectorErrors : Except String (List Candidate × CollectorResult) → List CollectorError
  | Except.ok (_, result) => result.errors
  | Except.error _ => []

/-- A source whose processing records an error: missing `channelId` or a
thrown API error. -/
def sourceFails (p : Source × FetchResult) : Bool :=
  match p.1.channelId, p.2 with
  | none, _ => true
  | some _, FetchResult.apiError _ => true
  | some _, _ => false

/-! ## Generator (the authoritative 4-stage generator)

External capabilities (OpenAI draft call, tag dictionary, HTML template)
are passed in as data and functions; `draft : Except String Article`
models the outcome of `requestArticleDraft` (a thrown error for a failed
call or unparseable response). -/

/-- The effective time value of a topic-history entry:
`new Date(entry.lastPublishedAt || entry.firstSeen)`.  The outer `Option`
is JS truthiness, the inner one parse success. -/
def entryEffectiveTime (e : TopicEntry) : Option (Option Int) :=
  match e.lastPublishedAt with
  | none => e.firstSeen
  | some v => some v

/-- Source translation of `isDuplicateTopic(topicKey, posts, history)` with
the current time passed explicitly.  The posts check compares
`slugify(post.title)` against the topic key with **no** date condition;
the history check requires the entry's effective time to parse and to lie
within the dedup window. -/
def isDuplicateTopic (now : Int) (topicKey : String) (posts : List Post)
    (history : List TopicEntry) : Bool :=
  let cutoff := now - (DEDUPE_WINDOW_DAYS : Int) * dayMs
  let inPosts := posts.any (fun post => decide (slugify post.title "" = topicKey))
  if inPosts then true
  else
    history.any (fun entry =>
      decide (entry.topicKey = topicKey) &&
        (match entryEffectiveTime entry with
         | some (some t) => decide (t ≥ cutoff)
         | _ => false))

/-- Source translation of `updateTopicHistory`: drop the old entry for the
key and append the fresh one (`firstSeen` falls back to now, the record's
`lastPublishedAt` is the generation date). -/
def updateTopicHistory (history : List TopicEntry) (topicKey : String)
    (sourceName videoTitle draftUrl : String) (now today : Int) : List TopicEntry :=
  let filtered := history.filter (fun entry => decide (entry.topicKey ≠ topicKey))
  filtered ++ [{ topicKey := topicKey,
                 firstSeen := some (some now),
                 lastPublishedAt := some (some today),
                 sourceName := sourceName,
                 videoTitle := videoTitle,
                 draftUrl := draftUrl }]

/-- The article payload handed to the Publisher (prose `sections` and the
source/video echo fields are omitted; no claim reads them). -/
structure ArticleData where
  title : String
  summary : String
  intro : String
  conclusion : String
  tags : List Tag
  slug : String
  date : Int
  htmlContent : String
  relativePath : String
  image : Option SelectedImage
deriving DecidableEq, Repr

/-- The generator stage outcome (the source's result object):
`noCandidates` ↔ reason `no-researched-candidates`, `skippedDuplicate` ↔
reason `duplicate-topic`, `generationFailed` ↔ reason
`article-generation-failed`, `generated` carries the post entry and the
article payload. -/
inductive GenOutcome
  | noCandidates
  | skippedDuplicate (candidateId : String)
  | generationFailed (candidateId : String) (error : String)
  | generated (candidateId : String) (postEntry : Post) (article : ArticleData)
deriving DecidableEq, Repr

/-- The store update marking the selected duplicate candidate `skipped`
(the generator's skip-branch `candidates.map`). -/
def skipUpdate (candId : String) (now : Int) (item : Candidate) : Candidate :=
  if item.id = candId then
    { item with status := Status.skipped,
                skipReason := some "duplicate-topic",
                updatedAt := now }
  else item

/-- The store update marking the selected candidate `failed` after a draft
error (the generator's catch-branch `candidates.map`). -/
def failUpdate (candId : String) (now : Int) (msg : String) (item : Candidate) : Candidate :=
  if item.id = candId then
    { item with status := Status.failed,
                failReason := some "article-generation-error",
                errorMessage := some msg,
                updatedAt := now }
  else item

/-- The store update marking the selected candidate `generated` (the
generator's success-branch `candidates.map`). -/
def genUpdate (candId : String) (now today : Int) (topicKey slug outputFile : String)
    (selectedImage : Option SelectedImage) (item : Candidate) : Candidate :=
  if item.id = candId then
    { item with status := Status.generated,
                generatedAt := some now,
                updatedAt := now,
                topicKey := topicKey,
                postDate := some today,
                slug := some slug,
                outputFile := some outputFile,
                image := selectedImage,
                imageKey := match selectedImage with
                            | some img => some img.key
                            | none => none }
  else item

/-- Source translation of `runGenerator`.  `now` is the run timestamp,
`today` the parsed date-only timestamp and `todayStr` its `YYYY-MM-DD`
rendering (two views of `new Date().toISOString().split("T")[0]`).
Returns the new candidate store, the new topic history and the outcome. -/
def runGenerator (apiKeyPresent : Bool) (candidates : List Candidate)
    (posts : List Post) (history : List TopicEntry)
    (now today : Int) (todayStr : String) (draft : Except String Article)
    (mapTags : List Tag → List Tag) (imagePool : List ArticleImage)
    (renderHtml : Article → Option SelectedImage → String) :
    Except String (List Candidate × List TopicEntry × GenOutcome) :=
  if ¬ apiKeyPresent then
    Except.error "OPENAI_API_KEY が設定されていません。"
  else
    match candidates.find? (fun item => decide (item.status = Status.researched)) with
    | none =>
      Except.ok (candidates, history, GenOutcome.noCandidates)
    | some candidate =>
      let fallbackTopicKey := slugify candidate.video.title ""
      let topicKey := if candidate.topicKey = "" then fallbackTopicKey else candidate.topicKey
      if isDuplicateTopic now topicKey posts history then
        let updatedCandidates := candidates.map (skipUpdate candidate.id now)
        Except.ok (updatedCandidates, history, GenOutcome.skippedDuplicate candidate.id)
      else
        match draft with
        | Except.error msg =>
          let updatedCandidates := candidates.map (failUpdate candidate.id now msg)
          Except.ok (updatedCandidates, history, GenOutcome.generationFailed candidate.id msg)
        | Except.ok article =>
          let normalizedTags := mapTags article.tags
          let hydratedArticle := { article with tags := normalizedTags }
          let selectedImage := selectArticleImage imagePool hydratedArticle candidate
          let slugifiedTitle :=
            slugify article.title (if topicKey = "" then "ai-topic" else topicKey)
          let slug := todayStr ++ "-" ++ slugifiedTitle
          let fileName := slug ++ ".html"
          let publishRelativePath := "posts/" ++ fileName
          let publishHtml := renderHtml hydratedArticle selectedImage
          let updatedCandidates := candidates.map
            (genUpdate candidate.id now today topicKey slug publishRelativePath selectedImage)
          let updatedHistory := updateTopicHistory history topicKey
            candidate.source.name candidate.video.title publishRelativePath now today
          let postEntry : Post :=
            { title := hydratedArticle.title, date := today,
              summary := hydratedArticle.summary, tags := normalizedTags,
              url := publishRelativePath, slug := slug,
              publishedAt := some now, image := selectedImage }
          let articleData : ArticleData :=
            { title := hydratedArticle.title, summary := hydratedArticle.summary,
              intro := hydratedArticle.intro, conclusion := hydratedArticle.conclusion,
              tags := normalizedTags, slug := slug, date := today,
              htmlContent := publishHtml, relativePath := publishRelativePath,
              image := selectedImage }
          Except.ok (updatedCandidates, updatedHistory,
            GenOutcome.generated candidate.id postEntry articleData)

/-- An outcome in which the article-generation call was reached (the run
proceeded past the duplicate check). -/
def attemptsArticleGeneration : GenOutcome → Prop
  | GenOutcome.generationFailed _ _ => True
  | GenOutcome.generated _ _ _ => True
  | _ => False

/-- The generator outcome of a generator run, `noCandidates` on a hard
failure (used only to phrase theorems). -/
def genOutcomeOf (r : Except String (List Candidate × List TopicEntry × GenOutcome)) :
    GenOutcome :=
  match r with
  | Except.ok (_, _, outcome) => outcome
  | Except.error _ => GenOutcome.noCandidates

/-- The candidate store of a generator run (the input store on failure). -/
def genStoreOf (fallback : List Candidate)
    (r : Except String (List Candidate × List TopicEntry × GenOutcome)) :
    List Candidate :=
  match r with
  | Except.ok (store, _, _) => store
  | Except.error _ => fallback

/-! ## Researcher (the authoritative 4-stage researcher) -/

/-- The denylist of social/video-hosting domains. -/
def BLOCKED_DOMAINS : List String :=
  ["x.com", "twitter.com", "t.co", "facebook.com", "instagram.com",
   "youtube.com", "youtu.be", "m.youtube.com"]

/-- A model of `new URL(url).hostname`: the authority segment after `://`
up to the first delimiter, lowercased; `none` models a URL whose parse
throws.  (URLs whose later parts contain `://` are outside the model.) -/
def hostOf (url : String) : Option String :=
  let cs := url.data
  let scheme := cs.takeWhile (fun c => decide (c ≠ ':'))
  match cs.drop scheme.length with
  | ':' :: '/' :: '/' :: tail =>
    let host := tail.takeWhile (fun c =>
      decide (c ≠ '/' ∧ c ≠ ':' ∧ c ≠ '?' ∧ c ≠ '#'))
    if scheme = [] ∨ host = [] then none
    else some (String.mk (host.map Char.toLower))
  | _ => none

/-- Source translation of `shouldSkipResult(url)`: skip absent or
unparseable URLs and any host equal to, or a subdomain of, a denylisted
domain. -/
def shouldSkipResult (url : Option String) : Bool :=
  match url with
  | none => true
  | some u =>
    match hostOf u with
    | none => true
    | some hostname =>
      BLOCKED_DOMAINS.any (fun blocked =>
        decide (hostname = blocked)
          || ("." ++ blocked).data.isSuffixOf hostname.data)

/-- One ranked web-search result (`{title, link, snippet}`). -/
structure SearchItem where
  title : String
  link : Option String
  snippet : String
deriving DecidableEq, Repr

/-- Outcome of the Google search call. -/
inductive SearchOutcome
  | failure (message : String)
  | ok (items : List SearchItem)
deriving DecidableEq, Repr

/-- Source translation of `summarizeSearchResult(item, index)` with its
external effects (page fetch, quality check, AI or extractive summary)
collapsed to one capability returning the summary text or a thrown error.
In the source both quality branches return an entry carrying the item's
own title (with a positional default), link and snippet. -/
def summarizeSearchResult (summaryEffect : SearchItem → Nat → Except String String)
    (item : SearchItem) (index : Nat) : Except String SummaryEntry :=
  (summaryEffect item index).map (fun summary =>
    { title := if item.title = "" then "検索結果" ++ toString (index + 1) else item.title,
      url := item.link,
      snippet := item.snippet,
      summary := summary })

/-- Source translation of `fetchSearchSummaries`: return `[]` for a missing
query or credentials or a failed search; otherwise filter the denylist,
fall back to the unfiltered list when nothing survives, take the top
`GOOGLE_TOP_LIMIT`, and summarize each item (a summarization error
degrades to the snippet).  The inflated request count (`num`) only affects
the request, not this output. -/
def fetchSearchSummaries (query : String) (keysPresent : Bool)
    (search : SearchOutcome)
    (summaryEffect : SearchItem → Nat → Except String String) : List SummaryEntry :=
  if query = "" ∨ ¬ keysPresent then []
  else
    match search with
    | SearchOutcome.failure _ => []
    | SearchOutcome.ok items =>
      let desiredCount := max 1 GOOGLE_TOP_LIMIT
      let filteredItems := items.filter (fun item => ! shouldSkipResult item.link)
      let limitedItems :=
        if 0 < filteredItems.length then filteredItems.take desiredCount
        else items.take desiredCount
      limitedItems.enum.map (fun p =>
        match summarizeSearchResult summaryEffect p.2 p.1 with
        | Except.ok entry => entry
        | Except.error _ =>
          { title := if p.2.title = "" then "検索結果" ++ toString (p.1 + 1) else p.2.title,
            url := p.2.link,
            snippet := p.2.snippet,
            summary := p.2.snippet })

/-- Per-candidate research data produced by the external-call cluster
(keyword extraction with fallback, topic-key derivation with fallback,
search summaries). -/
structure ResearchData where
  searchQuery : SearchQuery
  topicKey : String
  topicKeyMeta : TopicKeyMeta
  searchSummaries : List SummaryEntry

/-- The updated candidate written back by the Researcher's loop body. -/
def researchUpdate (c : Candidate) (d : ResearchData) (now : Int) : Candidate :=
  { c with searchQuery := some d.searchQuery,
           topicKey := d.topicKey,
           topicKeyMeta := some d.topicKeyMeta,
           searchSummaries := d.searchSummaries,
           status := Status.researched,
           researchedAt := some now,
           updatedAt := now }

/-- One iteration of the Researcher's candidate loop: replace the first
store entry with the candidate's id (`findIndex`), or leave the store
unchanged when the id is gone. -/
def researcherStep (research : Candidate → ResearchData) (now : Int)
    (st : List Candidate) (c : Candidate) : List Candidate :=
  match st.findIdx? (fun x => decide (x.id = c.id)) with
  | some i => st.set i (researchUpdate c (research c) now)
  | none => st

/-- The store effect of `runResearcher`: process every `collected`
candidate of the store, in store order. -/
def runResearcherStore (research : Candidate → ResearchData) (now : Int)
    (candidates : List Candidate) : List Candidate :=
  (candidates.filter (fun c => decide (c.status = Status.collected))).foldl
    (researcherStep research now) candidates

/-! ## Publisher (updatePosts, article write, status snapshot) -/

/-- Source translation of `parseDateValue(value, fallbackDate)`: the parsed
primary value, else the parsed fallback, else `0`. -/
def parseDateValue (value : Option Int) (fallbackDate : Option Int) : Int :=
  match value with
  | some t => t
  | none =>
    match fallbackDate with
    | some t => t
    | none => 0

/-- The slug-or-url sort key (`b.slug || b.url || ""`). -/
def slugKey (p : Post) : String :=
  if p.slug = "" then p.url else p.slug

/-- The sign of comparing two strings by their code-point sequences,
modelling `localeCompare` (whose exact collation is locale- and
implementation-defined) as a total order on strings. -/
def strSign (x y : String) : Int :=
  if x.data.map Char.toNat = y.data.map Char.toNat then 0
  else if x.data.map Char.toNat < y.data.map Char.toNat then -1 else 1

/-- The post sort comparator of `updatePosts` as a JS-style sign:
descending publish time, then descending date, then slug/url collation. -/
def postCompare (a b : Post) : Int :=
  let bTime := parseDateValue b.publishedAt (some b.date)
  let aTime := parseDateValue a.publishedAt (some a.date)
  if bTime ≠ aTime then bTime - aTime
  else if b.date ≠ a.date then b.date - a.date
  else strSign (slugKey b) (slugKey a)

/-- The sort relation induced by the comparator (`compare(a, b) <= 0`
puts `a` no later than `b` in the stable JS sort). -/
def postLe (a b : Post) : Prop :=
  postCompare a b ≤ 0

instance : DecidableRel postLe := fun a b => Int.decLe _ _

/-- The lexicographic reading of the comparator: descending publish time,
then descending date, then ascending slug-key code sequence.  Stated as a
definition so the order instances below can share it. -/
def postLexLe (a b : Post) : Prop :=
  parseDateValue b.publishedAt (some b.date) < parseDateValue a.publishedAt (some a.date)
    ∨ (parseDateValue b.publishedAt (some b.date)
          = parseDateValue a.publishedAt (some a.date)
        ∧ (b.date < a.date
            ∨ (b.date = a.date
                ∧ (slugKey b).data.map Char.toNat ≤ (slugKey a).data.map Char.toNat)))

/-- `postLe` coincides with its lexicographic reading (stated as a
definition of the proof so the instances below can use it before the
theorem section). -/
def postLe_iff_lex : ∀ a b : Post, postLe a b ↔ postLexLe a b := by
  intro a b
  simp only [postLe, postCompare, strSign, postLexLe]
  by_cases h1 : parseDateValue b.publishedAt (some b.date)
      = parseDateValue a.publishedAt (some a.date)
  · rw [if_neg (fun hne => hne h1)]
    by_cases h2 : b.date = a.date
    · rw [if_neg (fun hne => hne h2)]
      rcases lt_trichotomy ((slugKey b).data.map Char.toNat)
        ((slugKey a).data.map Char.toNat) with hm | hm | hm
      · rw [if_neg (ne_of_lt hm), if_pos hm]
        constructor
        · intro _
          exact Or.inr ⟨h1, Or.inr ⟨h2, le_of_lt hm⟩⟩
        · intro _
          norm_num
      · rw [if_pos hm]
        constructor
        · intro _
          exact Or.inr ⟨h1, Or.inr ⟨h2, le_of_eq hm⟩⟩
        · intro _
          exact le_refl 0
      · rw [if_neg (Ne.symm (ne_of_lt hm)), if_neg (asymm hm)]
        constructor
        · intro hle
          exact absurd hle (by norm_num)
        · rintro (hlt | ⟨heq, hdl | ⟨hde, hs⟩⟩)
          · omega
          · omega
          · exact absurd hs (not_le.mpr hm)
    · rw [if_pos h2]
      constructor
      · intro hle
        exact Or.inr ⟨h1, Or.inl (by omega)⟩
      · rintro (hlt | ⟨_, hlt | ⟨heq, _⟩⟩)
        · omega
        · omega
        · exact absurd heq h2
  · rw [if_pos h1]
    constructor
    · intro hle
      left
      rcases lt_or_le (parseDateValue b.publishedAt (some b.date))
        (parseDateValue a.publishedAt (some a.date)) with h | h
      · exact h
      · omega
    · rintro (hlt | ⟨heq, _⟩)
      · omega
      · exact absurd heq h1

instance : IsTotal Post postLe :=
  ⟨fun a b => by
    rw [postLe_iff_lex a b, postLe_iff_lex b a]
    simp only [postLexLe]
    rcases lt_trichotomy (parseDateValue b.publishedAt (some b.date))
      (parseDateValue a.publishedAt (some a.date)) with h1 | h1 | h1
    · exact Or.inl (Or.inl h1)
    · rcases lt_trichotomy b.date a.date with h2 | h2 | h2
      · exact Or.inl (Or.inr ⟨h1, Or.inl h2⟩)
      · rcases le_total ((slugKey b).data.map Char.toNat)
          ((slugKey a).data.map Char.toNat) with h3 | h3
        · exact Or.inl (Or.inr ⟨h1, Or.inr ⟨h2, h3⟩⟩)
        · exact Or.inr (Or.inr ⟨h1.symm, Or.inr ⟨h2.symm, h3⟩⟩)
      · exact Or.inr (Or.inr ⟨h1.symm, Or.inl h2⟩)
    · exact Or.inr (Or.inl h1)⟩

instance : IsTrans Post postLe :=
  ⟨fun a b c hab hbc => by
    rw [postLe_iff_lex] at hab hbc ⊢
    simp only [postLexLe] at hab hbc ⊢
    rcases hab with h1 | ⟨h1, hd⟩
    · rcases hbc with h2 | ⟨h2, _⟩
      · exact Or.inl (lt_trans h2 h1)
      · exact Or.inl (by rw [h2]; exact h1)
    · rcases hbc with h2 | ⟨h2, hd2⟩
      · exact Or.inl (by rw [← h1]; exact h2)
      · refine Or.inr ⟨h2.trans h1, ?_⟩
        rcases hd with hdl | ⟨hde, hs⟩
        · rcases hd2 with hdl2 | ⟨hde2, _⟩
          · exact Or.inl (lt_trans hdl2 hdl)
          · exact Or.inl (by rw [hde2]; exact hdl)
        · rcases hd2 with hdl2 | ⟨hde2, hs2⟩
          · exact Or.inl (by rw [← hde]; exact hdl2)
          · exact Or.inr ⟨hde2.trans hde, le_trans hs2 hs⟩⟩

/-- Source translation of `updatePosts(posts, newEntry)`: default
`publishedAt` to now, drop entries with the same `url`, append, re-sort
(stable). -/
def updatePosts (now : Int) (posts : List Post) (newEntry : Option Post) : List Post :=
  match newEntry with
  | none => posts
  | some entry =>
    let normalizedEntry :=
      { entry with publishedAt := match entry.publishedAt with
                                  | some t => some t
                                  | none => some now }
    let filtered := posts.filter (fun post => decide (post.url ≠ normalizedEntry.url))
    (filtered ++ [normalizedEntry]).insertionSort postLe

/-- The observable publisher effects modelled for one run. -/
structure PublisherOutput where
  wroteFile : Bool
  fileContent : Option String
  posts : List Post
  postsChanged : Bool
  statusLabel : String
deriving DecidableEq, Repr

/-- Source translation of the `runPublisher` core: with generator output,
write the article file only when its content differs from the existing
file, finalize the post entry (url from the output path, slug and image
falling back to the article's), upsert and re-sort the Post Record list
and persist it only when it changed; without generator output, publish
nothing.  `existingFile` is the current content of the output path. -/
def runPublisher (existingFile : Option String) (posts : List Post)
    (gen : GenOutcome) (now : Int) : PublisherOutput :=
  match gen with
  | GenOutcome.generated _ postEntry article =>
    if article.htmlContent = "" then
      { wroteFile := false, fileContent := existingFile, posts := posts,
        postsChanged := false, statusLabel := "skipped" }
    else
      let relativePath :=
        if article.relativePath = "" then
          "posts/" ++ (if article.slug = "" then "draft" else article.slug) ++ ".html"
        else article.relativePath
      let wrote := decide (existingFile ≠ some article.htmlContent)
      let finalizedPostEntry :=
        { postEntry with
            url := relativePath,
            slug := if postEntry.slug = "" then article.slug else postEntry.slug,
            image := match postEntry.image with
                     | some i => some i
                     | none => article.image }
      let updatedPosts := updatePosts now posts (some finalizedPostEntry)
      { wroteFile := wrote,
        fileContent := some article.htmlContent,
        posts := updatedPosts,
        postsChanged := decide (updatedPosts ≠ posts),
        statusLabel := "success" }
  | _ =>
    { wroteFile := false, fileContent := existingFile, posts := posts,
      postsChanged := false, statusLabel := "skipped" }

/-! ## Orchestrator (automation/pipeline/index.js) -/

/-- The researcher stage result fields the orchestrator reads. -/
structure ResearcherResult where
  processed : Nat
  succeeded : Nat
  failed : Nat
deriving DecidableEq, Repr

/-- The four pipeline stages. -/
inductive PipelineStage
  | collector
  | researcher
  | generator
  | publisher
deriving DecidableEq, Repr

/-- The observable effects of one orchestrator run. -/
structure PipelineRun where
  stagesRun : List PipelineStage
  snapshotWritten : Bool
  failed : Bool
deriving DecidableEq, Repr

/-- Source translation of the orchestrator `main`: run the stages in
order; any stage throw writes a failure snapshot and propagates; when the
Researcher reports zero succeeded candidates, Generator **and** Publisher
are both skipped, the skip status is only logged and no snapshot document
is written; otherwise the Publisher runs and writes the status snapshot. -/
def pipelineMain (collectorOutcome : Except String CollectorResult)
    (researcherOutcome : Except String ResearcherResult)
    (generatorOutcome : Except String GenOutcome) : PipelineRun :=
  match collectorOutcome with
  | Except.error _ =>
    { stagesRun := [PipelineStage.collector], snapshotWritten := true, failed := true }
  | Except.ok _ =>
    match researcherOutcome with
    | Except.error _ =>
      { stagesRun := [PipelineStage.collector, PipelineStage.researcher],
        snapshotWritten := true, failed := true }
    | Except.ok researcherResult =>
      if researcherResult.succeeded = 0 then
        { stagesRun := [PipelineStage.collector, PipelineStage.researcher],
          snapshotWritten := false, failed := false }
      else
        match generatorOutcome with
        | Except.error _ =>
          { stagesRun := [PipelineStage.collector, PipelineStage.researcher,
                          PipelineStage.generator],
            snapshotWritten := true, failed := true }
        | Except.ok _ =>
          { stagesRun := [PipelineStage.collector, PipelineStage.researcher,
                          PipelineStage.generator, PipelineStage.publisher],
            snapshotWritten := true, failed := false }

/-! ## Status progression (spec §3 invariants) -/

/-- The index of a status in the forward chain
`collected → researched → generated → published`; `none` for the lateral
terminal statuses. -/
def chainIdx : Status → Option Nat
  | Status.collected => some 0
  | Status.researched => some 1
  | Status.generated => some 2
  | Status.published => some 3
  | Status.skipped => none
  | Status.failed => none

/-- The spec's allowed status moves: stay put, advance along the chain, or
move laterally from `collected`/`researched` to `skipped`/`failed`. -/
def statusStep (before after : Status) : Bool :=
  decide (before = after)
    || (match chainIdx before, chainIdx after with
        | some i, some j => decide (i < j)
        | _, _ => false)
    || ((decide (before = Status.collected) || decide (before = Status.researched))
        && (decide (after = Status.skipped) || decide (after = Status.failed)))

/-- Pointwise relation between a store before and after one stage
operation: the id is unchanged and the status moved along an allowed step. -/
def evolvedPair (a b : Candidate) : Prop :=
  b.id = a.id ∧ statusStep a.status b.status = true

/-- A trivial concrete research-capability outcome (for witnesses). -/
def exResearch : Candidate → ResearchData := fun _ =>
  { searchQuery := { original := "t", extracted := "t", method := "openai" },
    topicKey := "gemini-3-launch",
    topicKeyMeta := { method := "llm", raw := "t", error := none },
    searchSummaries := [] }

/-! ## Concrete example records used by witnesses and counterexamples -/

/-- A baseline source descriptor for concrete scenarios. -/
def exSource : Source :=
  { platform := "YouTube", name := "Ch", channelId := some "UC1",
    url := some "https://www.youtube.com/channel/UC1", focus := ["ai"] }

/-- A baseline candidate record for concrete scenarios. -/
def baseCandidate : Candidate :=
  { id := "yt-v0",
    source := exSource,
    video := { id := "v0", title := "Gemini 3 Launch", description := "",
               thumbnail := none, publishedAt := some 1700000000000,
               url := "https://www.youtube.com/watch?v=v0" },
    status := Status.collected,
    createdAt := 0, updatedAt := 0,
    topicKey := "", notes := "",
    searchQuery := none, topicKeyMeta := none, searchSummaries := [],
    researchedAt := none, generatedAt := none,
    skipReason := none, failReason := none, errorMessage := none,
    postDate := none, slug := none, outputFile := none,
    image := none, imageKey := none }

/-- The i-th of a family of active candidates (for the cap scenario). -/
def c6Candidate (i : Nat) : Candidate :=
  { baseCandidate with id := "yt-v" ++ toString i,
                       createdAt := (i : Int), updatedAt := (i : Int) }

/-- A store of 40 active candidates with distinct creation times. -/
def c6List : List Candidate :=
  (List.range 40).map c6Candidate

/-- A trivially successful collector stage result. -/
def exCollectorResult : CollectorResult :=
  { checkedSources := 1, newCandidates := 0, totalCandidates := 0, errors := [] }

/-- A researched candidate with topic key `gemini-3-launch`. -/
def researchedCandidate : Candidate :=
  { baseCandidate with status := Status.researched, topicKey := "gemini-3-launch" }

/-- A reference run timestamp for the dedup scenarios. -/
def exNow : Int := 1700000000000

/-- A post whose title slugifies to `gemini-3-launch`, published 10 days
before `exNow` (well outside the 5-day dedup window). -/
def oldPost : Post :=
  { title := "Gemini 3 Launch", date := exNow - 10 * dayMs,
    summary := "s", tags := [], url := "posts/old.html",
    slug := "old", publishedAt := some (exNow - 10 * dayMs), image := none }

/-- A topic-history entry for `gemini-3-launch` last published `d` days
before `exNow`. -/
def historyEntryDaysAgo (d : Int) : TopicEntry :=
  { topicKey := "gemini-3-launch",
    firstSeen := some (some (exNow - d * dayMs)),
    lastPublishedAt := some (some (exNow - d * dayMs)),
    sourceName := "Ch", videoTitle := "Gemini 3 Launch", draftUrl := "posts/old.html" }

/-- A search result hosted on a denylisted domain. -/
def blockedItem : SearchItem :=
  { title := "On YouTube", link := some "https://www.youtube.com/watch?v=zzz",
    snippet := "sn" }

/-- A search result hosted on an allowed domain. -/
def cleanItem : SearchItem :=
  { title := "A blog post", link := some "https://example.com/post",
    snippet := "sn" }

/-- A post entry as the generator emits it (for the publish scenarios). -/
def exPostEntry : Post :=
  { title := "Gemini 3 Launch", date := exNow,
    summary := "s", tags := [Tag.obj "gemini" "Gemini" "model"],
    url := "posts/2023-11-14-gemini-3-launch.html",
    slug := "2023-11-14-gemini-3-launch",
    publishedAt := some exNow, image := none }

/-- The matching article payload (for the publish scenarios). -/
def exArticleData : ArticleData :=
  { title := "Gemini 3 Launch", summary := "s", intro := "i", conclusion := "c",
    tags := [Tag.obj "gemini" "Gemini" "model"],
    slug := "2023-11-14-gemini-3-launch", date := exNow,
    htmlContent := "<html>gemini</html>",
    relativePath := "posts/2023-11-14-gemini-3-launch.html",
    image := none }

/-! # Theorems -/

/-! ## Hash refinement lemmas -/

theorem hashStep_specFoldSigned (u : Nat) (c : Nat) :
    hashStep (specFoldSigned u) c = specFoldSigned ((u * 31 + c) % 4294967296) := by
  simp only [hashStep, jsToInt32, specFoldSigned]
  split_ifs <;> omega

theorem foldl_hashStep_spec (cs : List Nat) : ∀ (u : Nat),
    cs.foldl hashStep (specFoldSigned u) =
      specFoldSigned (cs.foldl (fun h c => (h * 31 + c) % 4294967296) u) := by
  induction cs with
  | nil => intro u; rfl
  | cons c cs ih =>
    intro u
    simp only [List.foldl_cons]
    rw [hashStep_specFoldSigned u c]
    exact ih _

theorem jsHash_eq_spec (s : String) : jsHash s = specFoldSigned (specHashUnsigned s) := by
  have h0 : (0 : Int) = specFoldSigned 0 := by simp [specFoldSigned]
  simp only [jsHash, specHashUnsigned]
  rw [show (s.data.foldl (fun h c => hashStep h c.toNat) 0) =
      ((s.data.map Char.toNat).foldl hashStep (specFoldSigned 0)) by
    rw [List.foldl_map, ← h0]]
  rw [foldl_hashStep_spec _ 0, List.foldl_map]

/-! ## Claim C7 -/

theorem orderedInsert_split {α : Type} (r : α → α → Prop) [DecidableRel r]
    (a e : α) : ∀ (u v : List α), (∀ y ∈ v, ¬ r y e) →
    ∃ u2 v2, (u ++ e :: v).orderedInsert r a = u2 ++ e :: v2
      ∧ (∀ y ∈ u2, y ∈ u ∨ y = a)
      ∧ (∀ y ∈ v2, (y ∈ v ∨ y = a) ∧ ¬ r y e) := by
  intro u
  induction u with
  | nil =>
    intro v hv
    simp only [List.nil_append, List.orderedInsert]
    by_cases hae : r a e
    · refine ⟨[a], v, by rw [if_pos hae]; rfl, ?_, fun y hy => ⟨Or.inl hy, hv y hy⟩⟩
      intro y hy
      simp only [List.mem_singleton] at hy
      exact Or.inr hy
    · refine ⟨[], v.orderedInsert r a, by rw [if_neg hae]; rfl, by simp, ?_⟩
      intro y hy
      rcases (List.mem_orderedInsert r).mp hy with h | h
      · exact ⟨Or.inr h, h ▸ hae⟩
      · exact ⟨Or.inl h, hv y h⟩
  | cons b u ih =>
    intro v hv
    simp only [List.cons_append, List.orderedInsert, List.append_eq]
    by_cases hab : r a b
    · rw [if_pos hab]
      refine ⟨a :: b :: u, v, rfl, ?_, fun y hy => ⟨Or.inl hy, hv y hy⟩⟩
      intro y hy
      rcases List.mem_cons.mp hy with h | h
      · exact Or.inr h
      · exact Or.inl h
    · rw [if_neg hab]
      obtain ⟨u2, v2, heq, hu2, hv2⟩ := ih v hv
      refine ⟨b :: u2, v2, by rw [heq]; rfl, ?_, hv2⟩
      intro y hy
      rcases List.mem_cons.mp hy with h | h
      · exact Or.inl (h ▸ List.mem_cons_self b u)
      · rcases hu2 y h with h2 | h2
        · exact Or.inl (List.mem_cons_of_mem b h2)
        · exact Or.inr h2

theorem insertionSort_append_single {α : Type} (r : α → α → Prop) [DecidableRel r]
    (e : α) : ∀ (l : List α),
    ∃ u v, (l ++ [e]).insertionSort r = u ++ e :: v
      ∧ (∀ y ∈ u, y ∈ l) ∧ (∀ y ∈ v, y ∈ l ∧ ¬ r y e) := by
  intro l
  induction l with
  | nil => exact ⟨[], [], rfl, by simp, by simp⟩
  | cons a l ih =>
    obtain ⟨u, v, heq, hu, hv⟩ := ih
    simp only [List.cons_append, List.insertionSort, List.append_eq]
    rw [heq]
    obtain ⟨u2, v2, heq2, hu2, hv2⟩ :=
      orderedInsert_split r a e u v (fun y hy => (hv y hy).2)
    refine ⟨u2, v2, heq2, ?_, ?_⟩
    · intro y hy
      rcases hu2 y hy with h | h
      · exact List.mem_cons_of_mem a (hu y h)
      · exact h ▸ List.mem_cons_self a l
    · intro y hy
      obtain ⟨hmem, hre⟩ := hv2 y hy
      rcases hmem with h | h
      · exact ⟨List.mem_cons_of_mem a ((hv y h).1), hre⟩
      · exact ⟨h ▸ List.mem_cons_self a l, hre⟩

theorem orderedInsert_of_forall_rel {α : Type} (r : α → α → Prop) [DecidableRel r]
    (a : α) : ∀ (l : List α), (∀ z ∈ l, r a z) → l.orderedInsert r a = a :: l := by
  intro l hl
  cases l with
  | nil => rfl
  | cons b t =>
    simp only [List.orderedInsert]
    rw [if_pos (hl b (List.mem_cons_self b t))]

theorem insertionSort_cons_front {α : Type} (r : α → α → Prop) [DecidableRel r]
    (e : α) : ∀ (v : List α), List.Pairwise r (e :: v) → (∀ y ∈ v, ¬ r y e) →
      (v ++ [e]).insertionSort r = e :: v := by
  intro v
  induction v with
  | nil =>
    intro _ _
    rfl
  | cons y v ihv =>
    intro hp hv
    have hpe : List.Pairwise r (e :: v) := by
      rcases List.pairwise_cons.mp hp with ⟨hrel, htail⟩
      exact List.pairwise_cons.mpr
        ⟨fun z hz => hrel z (List.mem_cons_of_mem y hz),
         (List.pairwise_cons.mp htail).2⟩
    simp only [List.cons_append, List.insertionSort, List.append_eq]
    rw [ihv hpe (fun z hz => hv z (List.mem_cons_of_mem y hz))]
    simp only [List.orderedInsert]
    rw [if_neg (hv y (List.mem_cons_self y v))]
    rw [orderedInsert_of_forall_rel r y v
      (fun z hz => List.rel_of_pairwise_cons (List.pairwise_cons.mp hp).2 hz)]

theorem insertionSort_reconstruct {α : Type} (r : α → α → Prop) [DecidableRel r]
    (e : α) : ∀ (u v : List α),
      List.Pairwise r (u ++ e :: v) → (∀ y ∈ v, ¬ r y e) →
      ((u ++ v) ++ [e]).insertionSort r = u ++ e :: v := by
  intro u
  induction u with
  | nil =>
    intro v hp hv
    simp only [List.nil_append] at hp ⊢
    exact insertionSort_cons_front r e v hp hv
  | cons a u ih =>
    intro v hp hv
    have hp' : List.Pairwise r (u ++ e :: v) := (List.pairwise_cons.mp hp).2
    have hrel : ∀ z ∈ u ++ e :: v, r a z := (List.pairwise_cons.mp hp).1
    simp only [List.cons_append, List.insertionSort, List.append_eq]
    rw [ih v hp' hv]
    rw [orderedInsert_of_forall_rel r a (u ++ e :: v) hrel]

theorem normalizePost_eq (e : Post) (n : Int) (h : e.publishedAt.isSome = true) :
    ({ e with publishedAt := match e.publishedAt with
                             | some t => some t
                             | none => some n } : Post) = e := by
  cases e with
  | mk title date summary tags url slug publishedAt image =>
    cases publishedAt with
    | some t => rfl
    | none => simp at h

theorem updatePosts_eq (now : Int) (posts : List Post) (e : Post)
    (he : e.publishedAt.isSome = true) :
    updatePosts now posts (some e)
      = ((posts.filter (fun post => decide (post.url ≠ e.url))) ++ [e]).insertionSort
          postLe := by
  simp only [updatePosts]
  simp only [normalizePost_eq e now he]

/-- Upserting the same entry a second time leaves the Post Record list
unchanged (the stable re-sort reproduces the first run's list exactly). -/
theorem updatePosts_idem (now now2 : Int) (posts : List Post) (e : Post)
    (he : e.publishedAt.isSome = true) :
    updatePosts now2 (updatePosts now posts (some e)) (some e)
      = updatePosts now posts (some e) := by
  rw [updatePosts_eq now posts e he, updatePosts_eq now2 _ e he]
  have hLp : ∀ y ∈ posts.filter (fun post => decide (post.url ≠ e.url)),
      y.url ≠ e.url := by
    intro y hy
    have h2 := (List.mem_filter.mp hy).2
    simpa using h2
  obtain ⟨u, v, heq, hu, hv⟩ := insertionSort_append_single postLe e
    (posts.filter (fun post => decide (post.url ≠ e.url)))
  rw [heq]
  have hfu : u.filter (fun post => decide (post.url ≠ e.url)) = u :=
    List.filter_eq_self.mpr (fun y hy => by simpa using hLp y (hu y hy))
  have hfv : v.filter (fun post => decide (post.url ≠ e.url)) = v :=
    List.filter_eq_self.mpr (fun y hy => by simpa using hLp y ((hv y hy).1))
  have hfilter : (u ++ e :: v).filter (fun post => decide (post.url ≠ e.url))
      = u ++ v := by
    rw [List.filter_append, hfu, List.filter_cons_of_neg, hfv]
    simp
  rw [hfilter]
  have hsorted : List.Pairwise postLe (u ++ e :: v) := by
    rw [← heq]
    exact List.sorted_insertionSort postLe _
  exact insertionSort_reconstruct postLe e u v hsorted (fun y hy => (hv y hy).2)

/-- Claim C7: running the Publisher twice on the same generator output is
idempotent: the second run performs no file write (the file already holds
the identical HTML) and leaves the Post Record list's contents and
ordering unchanged. -/
theorem C7_publish_idempotent (existingFile : Option String) (posts : List Post)
    (candidateId : String) (postEntry : Post) (article : ArticleData)
    (now now2 : Int)
    (hhtml : ¬ article.htmlContent = "")
    (hpub : postEntry.publishedAt.isSome = true) :
    ((runPublisher
        (runPublisher existingFile posts
          (GenOutcome.generated candidateId postEntry article) now).fileContent
        (runPublisher existingFile posts
          (GenOutcome.generated candidateId postEntry article) now).posts
        (GenOutcome.generated candidateId postEntry article) now2).wroteFile = false)
      ∧ (runPublisher
          (runPublisher existingFile posts
            (GenOutcome.generated candidateId postEntry article) now).fileContent
          (runPublisher existingFile posts
            (GenOutcome.generated candidateId postEntry article) now).posts
          (GenOutcome.generated candidateId postEntry article) now2).posts
        = (runPublisher existingFile posts
            (GenOutcome.generated candidateId postEntry article) now).posts
      ∧ (runPublisher
          (runPublisher existingFile posts
            (GenOutcome.generated candidateId postEntry article) now).fileContent
          (runPublisher existingFile posts
            (GenOutcome.generated candidateId postEntry article) now).posts
          (GenOutcome.generated candidateId postEntry article) now2).postsChanged
        = false := by
  have hfinpub : ({ postEntry with
      url := if article.relativePath = ""
             then "posts/" ++ (if article.slug = "" then "draft" else article.slug)
                    ++ ".html"
             else article.relativePath,
      slug := if postEntry.slug = "" then article.slug else postEntry.slug,
      image := match postEntry.image with
               | some i => some i
               | none => article.image } : Post).publishedAt.isSome = true := hpub
  have hidem := updatePosts_idem now now2 posts _ hfinpub
  refine ⟨?_, ?_, ?_⟩
  · simp [runPublisher, hhtml]
  · simp only [runPublisher, if_neg hhtml]
    exact hidem
  · simp only [runPublisher, if_neg hhtml]
    rw [hidem]
    simp

/-- Witness for C7 at a concrete article and post entry. -/
theorem C7_publish_idempotent_witness :
    (¬ exArticleData.htmlContent = "")
      ∧ exPostEntry.publishedAt.isSome = true
      ∧ ((runPublisher
            (runPublisher none []
              (GenOutcome.generated "yt-v0" exPostEntry exArticleData) exNow).fileContent
            (runPublisher none []
              (GenOutcome.generated "yt-v0" exPostEntry exArticleData) exNow).posts
            (GenOutcome.generated "yt-v0" exPostEntry exArticleData) exNow).wroteFile
          = false)
      ∧ (runPublisher
          (runPublisher none []
            (GenOutcome.generated "yt-v0" exPostEntry exArticleData) exNow).fileContent
          (runPublisher none []
            (GenOutcome.generated "yt-v0" exPostEntry exArticleData) exNow).posts
          (GenOutcome.generated "yt-v0" exPostEntry exArticleData) exNow).posts
        = (runPublisher none []
            (GenOutcome.generated "yt-v0" exPostEntry exArticleData) exNow).posts :=
  ⟨by decide, by decide,
   (C7_publish_idempotent none [] "yt-v0" exPostEntry exArticleData exNow exNow
      (by decide) (by decide)).1,
   (C7_publish_idempotent none [] "yt-v0" exPostEntry exArticleData exNow exNow
      (by decide) (by decide)).2.1⟩

/-! ## Claim C10 -/

theorem snd_mem_of_mem_enum {α : Type} {p : Nat × α} {l : List α}
    (h : p ∈ l.enum) : p.2 ∈ l := by
  have h2 := List.mem_enum_iff_getElem?.mp h
  exact List.getElem?_mem h2

/-- Claim C10 (amended): whenever at least one search result survives the
denylist filter, only the top `GOOGLE_TOP_LIMIT` surviving results are
summarized and no resulting summary entry carries a denylisted URL.  (The
frozen claim's unconditional guarantee fails: when the filter removes
*every* result, the source falls back to the unfiltered top results, so
denylisted URLs can reach `searchSummaries` — see the counterexample.) -/
theorem C10_denylist_filtering (query : String) (keysPresent : Bool)
    (items : List SearchItem)
    (summaryEffect : SearchItem → Nat → Except String String)
    (hsurvive : items.filter (fun item => ! shouldSkipResult item.link) ≠ []) :
    (fetchSearchSummaries query keysPresent (SearchOutcome.ok items) summaryEffect).length
        ≤ GOOGLE_TOP_LIMIT
      ∧ ∀ e ∈ fetchSearchSummaries query keysPresent (SearchOutcome.ok items) summaryEffect,
          shouldSkipResult e.url = false := by
  by_cases hq1 : query = ""
  · constructor
    · simp [fetchSearchSummaries, hq1]
    · intro e he
      simp [fetchSearchSummaries, hq1] at he
  by_cases hq2 : keysPresent = true
  case neg =>
    have hkf : keysPresent = false := by simpa using hq2
    constructor
    · simp [fetchSearchSummaries, hq1, hkf]
    · intro e he
      simp [fetchSearchSummaries, hq1, hkf] at he
  case pos =>
    have hpos : 0 < (items.filter (fun item => ! shouldSkipResult item.link)).length := by
      cases hf : items.filter (fun item => ! shouldSkipResult item.link) with
      | nil => exact absurd hf hsurvive
      | cons a l => simp
    have heq : fetchSearchSummaries query keysPresent (SearchOutcome.ok items) summaryEffect
        = ((items.filter (fun item => ! shouldSkipResult item.link)).take
            (max 1 GOOGLE_TOP_LIMIT)).enum.map (fun p =>
          match summarizeSearchResult summaryEffect p.2 p.1 with
          | Except.ok entry => entry
          | Except.error _ =>
            { title := if p.2.title = "" then "検索結果" ++ toString (p.1 + 1) else p.2.title,
              url := p.2.link,
              snippet := p.2.snippet,
              summary := p.2.snippet }) := by
      simp [fetchSearchSummaries, hq1, hq2, hpos]
    constructor
    · rw [heq, List.length_map, List.enum_length]
      calc ((items.filter (fun item => ! shouldSkipResult item.link)).take
            (max 1 GOOGLE_TOP_LIMIT)).length
          ≤ max 1 GOOGLE_TOP_LIMIT := List.length_take_le _ _
        _ ≤ GOOGLE_TOP_LIMIT := by norm_num [GOOGLE_TOP_LIMIT]
    · intro e he
      rw [heq] at he
      rw [List.mem_map] at he
      obtain ⟨p, hp, hep⟩ := he
      have hmem : p.2 ∈ items.filter (fun item => ! shouldSkipResult item.link) :=
        List.mem_of_mem_take (snd_mem_of_mem_enum hp)
      have hfalse : shouldSkipResult p.2.link = false := by
        have := (List.mem_filter.mp hmem).2
        simpa using this
      cases hres : summaryEffect p.2 p.1 with
      | ok s =>
        simp only [summarizeSearchResult, hres, Except.map] at hep
        rw [← hep]
        exact hfalse
      | error msg =>
        simp only [summarizeSearchResult, hres, Except.map] at hep
        rw [← hep]
        exact hfalse

/-- Counterexample for C10 as frozen: when every search result is on the
denylist, the source falls back to the unfiltered top results, so a
denylisted URL reaches the persisted summaries. -/
theorem C10_denylist_counterexample :
    (fetchSearchSummaries "gemini" true (SearchOutcome.ok [blockedItem])
        (fun _ _ => Except.error "summary failed")).map
        (fun e => shouldSkipResult e.url)
      = [true] := by
  decide

/-- Witness for C10 at a concrete clean result list. -/
theorem C10_denylist_filtering_witness :
    ([cleanItem].filter (fun item => ! shouldSkipResult item.link) ≠ [])
      ∧ ((fetchSearchSummaries "gemini" true (SearchOutcome.ok [cleanItem])
            (fun _ _ => Except.error "summary failed")).length ≤ GOOGLE_TOP_LIMIT
          ∧ ∀ e ∈ fetchSearchSummaries "gemini" true (SearchOutcome.ok [cleanItem])
              (fun _ _ => Except.error "summary failed"),
              shouldSkipResult e.url = false) :=
  ⟨by decide,
   C10_denylist_filtering "gemini" true [cleanItem]
     (fun _ _ => Except.error "summary failed") (by decide)⟩

/-! ## Claim C8 -/

/-- Claim C8 (amended): for every non-empty pool and every **non-empty**
seed string, `deterministicPickFromPool pool seed` returns `pool[index]`
where `index` is the reference index of the spec's algorithm (hash from 0,
each character folded as `(hash * 31 + code) mod 2^32` read as signed
32-bit, then `|hash| mod pool.length`); the result exists, and the same
seed always yields the same pick.  (The original claim quantified over
every seed string; the empty seed is replaced by the default seed
`ai-info-blog` in the source, see the counterexample.) -/
theorem C8_deterministicPick_matches_reference (pool : List α) (seed : String)
    (hpool : pool ≠ []) (hseed : seed ≠ "") :
    deterministicPickFromPool pool seed = pool.get? (specPickIndex seed pool.length)
      ∧ (deterministicPickFromPool pool seed).isSome = true
      ∧ deterministicPickFromPool pool seed = deterministicPickFromPool pool seed := by
  have hne : pool.isEmpty = false := by
    cases pool with
    | nil => exact absurd rfl hpool
    | cons a l => rfl
  have hlen : 0 < pool.length := by
    cases pool with
    | nil => exact absurd rfl hpool
    | cons a l => simp
  have heq : deterministicPickFromPool pool seed
      = pool.get? (specPickIndex seed pool.length) := by
    simp only [deterministicPickFromPool, hne, Bool.false_eq_true, if_false, if_neg hseed,
      specPickIndex, jsHash_eq_spec]
  refine ⟨heq, ?_, rfl⟩
  rw [heq]
  have hidx : specPickIndex seed pool.length < pool.length :=
    Nat.mod_lt _ hlen
  rw [List.get?_eq_get hidx]
  rfl

/-- Witness for C8 at a concrete pool and seed. -/
theorem C8_deterministicPick_witness :
    deterministicPickFromPool (["a", "b", "c"] : List String) "chatgpt"
      = (["a", "b", "c"] : List String).get? (specPickIndex "chatgpt" 3) :=
  (C8_deterministicPick_matches_reference (["a", "b", "c"] : List String) "chatgpt"
    (by decide) (by decide)).1

/-- Counterexample for C8 as frozen: for the empty seed the source hashes
the default seed `ai-info-blog`, not the seed's (zero) characters, so the
pick differs from the reference index (which is `0`). -/
theorem C8_empty_seed_counterexample :
    deterministicPickFromPool (["a", "b", "c"] : List String) ""
      ≠ (["a", "b", "c"] : List String).get? (specPickIndex "" 3) := by
  set_option maxRecDepth 4096 in decide

/-! ## Claim C3 -/

theorem collectSources_errors_length (now : Int) (srcs : List (Source × FetchResult)) :
    ∀ (acc : List Candidate) (errors : List CollectorError) (newCount : Nat),
      ((collectSources now srcs acc errors newCount).2.1).length
        = errors.length + srcs.countP sourceFails := by
  induction srcs with
  | nil =>
    intro acc errors newCount
    simp [collectSources]
  | cons p rest ih =>
    intro acc errors newCount
    obtain ⟨src, fetch⟩ := p
    cases hch : src.channelId with
    | none =>
      simp [collectSources, hch, ih, List.countP_cons, sourceFails]
      omega
    | some cid =>
      cases fetch with
      | quotaSkip =>
        simp [collectSources, hch, ih, List.countP_cons, sourceFails]
      | apiError msg =>
        simp [collectSources, hch, ih, List.countP_cons, sourceFails]
        omega
      | ok videos =>
        simp [collectSources, hch, ih, List.countP_cons, sourceFails]

theorem sourceFails_normalize (p : Source × FetchResult) :
    sourceFails (normalizeSource p.1, p.2) = sourceFails p := by
  obtain ⟨src, fetch⟩ := p
  cases hch : src.channelId with
  | none => cases fetch <;> simp [sourceFails, normalizeSource, hch]
  | some cid => cases fetch <;> simp [sourceFails, normalizeSource, hch]

/-- Claim C3 (amended): with the credential present and a non-empty source
list, `runCollector` always completes normally — even when every configured
source fails — recording exactly one entry in the returned errors list per
failing source (missing `channelId` or thrown API error).  Hard failures
exist only for a missing credential or an empty source list; the frozen
claim's abort when *all* sources fail does not exist in the authoritative
collector (see the counterexample). -/
theorem C3_collector_completes_despite_failures
    (sources : List (Source × FetchResult)) (existing : List Candidate) (now : Int)
    (hs : sources ≠ []) :
    (runCollector true sources existing now).isOk = true
      ∧ (collectorErrors (runCollector true sources existing now)).length
          = sources.countP sourceFails := by
  have hne : sources.isEmpty = false := by
    cases sources with
    | nil => exact absurd rfl hs
    | cons a l => rfl
  constructor
  · simp [runCollector, hne, Except.isOk, Except.toBool]
  · simp [runCollector, hne, collectorErrors]
    rw [collectSources_errors_length]
    rw [List.countP_map]
    simp only [List.length_nil, Nat.zero_add]
    apply List.countP_congr
    intro p _
    simp [Function.comp, sourceFails_normalize p]

/-- Counterexample for C3 as frozen: a run in which every configured source
fails (here the only source throws an API error) completes normally with
the error recorded in the result, instead of raising a hard failure. -/
theorem C3_all_sources_failed_counterexample :
    runCollector true [(exSource, FetchResult.apiError "YouTube API error 500: boom")] [] 0
      = Except.ok ([],
          { checkedSources := 1, newCandidates := 0, totalCandidates := 0,
            errors := [{ source := "Ch", message := "YouTube API error 500: boom" }] }) := by
  rfl

/-- Witness for C3 at a concrete failing input. -/
theorem C3_collector_witness :
    (([(exSource, FetchResult.apiError "boom")] : List (Source × FetchResult)) ≠ [])
      ∧ (runCollector true [(exSource, FetchResult.apiError "boom")] [] 0).isOk = true :=
  ⟨by decide,
   (C3_collector_completes_despite_failures
      [(exSource, FetchResult.apiError "boom")] [] 0 (by decide)).1⟩

/-! ## Claim C4 -/

/-- Claim C4 (amended): for every orchestrator run in which the Researcher
stage completes with zero successfully-researched candidates, the
orchestrator skips **both** the Generator and the Publisher: only the
Collector and Researcher stages run, and no status snapshot document is
written (the skip status is only logged to the console).  The frozen
claim's "still invokes the Publisher" is refuted by the counterexample. -/
theorem C4_zero_research_skips_publisher
    (collectorResult : CollectorResult) (researcherResult : ResearcherResult)
    (generatorOutcome : Except String GenOutcome)
    (h0 : researcherResult.succeeded = 0) :
    pipelineMain (Except.ok collectorResult) (Except.ok researcherResult) generatorOutcome
      = { stagesRun := [PipelineStage.collector, PipelineStage.researcher],
          snapshotWritten := false, failed := false } := by
  simp [pipelineMain, h0]

/-- Counterexample for C4 as frozen: with zero researched candidates the
Publisher stage is not invoked and no snapshot is written. -/
theorem C4_counterexample :
    PipelineStage.publisher ∉ (pipelineMain (Except.ok exCollectorResult)
        (Except.ok { processed := 0, succeeded := 0, failed := 0 })
        (Except.ok GenOutcome.noCandidates)).stagesRun
      ∧ (pipelineMain (Except.ok exCollectorResult)
          (Except.ok { processed := 0, succeeded := 0, failed := 0 })
          (Except.ok GenOutcome.noCandidates)).snapshotWritten = false := by
  decide

/-- Witness for C4 at a concrete zero-success run. -/
theorem C4_witness :
    ({ processed := 3, succeeded := 0, failed := 3 } : ResearcherResult).succeeded = 0
      ∧ pipelineMain (Except.ok exCollectorResult)
          (Except.ok { processed := 3, succeeded := 0, failed := 3 })
          (Except.ok GenOutcome.noCandidates)
        = { stagesRun := [PipelineStage.collector, PipelineStage.researcher],
            snapshotWritten := false, failed := false } :=
  ⟨rfl, C4_zero_research_skips_publisher exCollectorResult
    { processed := 3, succeeded := 0, failed := 3 }
    (Except.ok GenOutcome.noCandidates) rfl⟩

/-! ## Generator helper lemmas (claims C1, C2, C5) -/

theorem runGenerator_skip_eq (candidates : List Candidate) (posts : List Post)
    (history : List TopicEntry) (now today : Int) (todayStr : String)
    (draft : Except String Article) (mapTags : List Tag → List Tag)
    (imagePool : List ArticleImage) (renderHtml : Article → Option SelectedImage → String)
    (cand : Candidate)
    (hfind : candidates.find? (fun item => decide (item.status = Status.researched))
      = some cand)
    (hdup : isDuplicateTopic now
        (if cand.topicKey = "" then slugify cand.video.title "" else cand.topicKey)
        posts history = true) :
    runGenerator true candidates posts history now today todayStr draft
        mapTags imagePool renderHtml
      = Except.ok (candidates.map (skipUpdate cand.id now),
          history, GenOutcome.skippedDuplicate cand.id) := by
  simp [runGenerator, hfind, hdup]

theorem runGenerator_skip_outcome (candidates : List Candidate) (posts : List Post)
    (history : List TopicEntry) (now today : Int) (todayStr : String)
    (draft : Except String Article) (mapTags : List Tag → List Tag)
    (imagePool : List ArticleImage) (renderHtml : Article → Option SelectedImage → String)
    (cand : Candidate)
    (hfind : candidates.find? (fun item => decide (item.status = Status.researched))
      = some cand)
    (hdup : isDuplicateTopic now
        (if cand.topicKey = "" then slugify cand.video.title "" else cand.topicKey)
        posts history = true) :
    genOutcomeOf (runGenerator true candidates posts history now today todayStr draft
        mapTags imagePool renderHtml) = GenOutcome.skippedDuplicate cand.id := by
  rw [runGenerator_skip_eq candidates posts history now today todayStr draft
    mapTags imagePool renderHtml cand hfind hdup]
  rfl

theorem runGenerator_skip_store (candidates : List Candidate) (posts : List Post)
    (history : List TopicEntry) (now today : Int) (todayStr : String)
    (draft : Except String Article) (mapTags : List Tag → List Tag)
    (imagePool : List ArticleImage) (renderHtml : Article → Option SelectedImage → String)
    (cand : Candidate)
    (hfind : candidates.find? (fun item => decide (item.status = Status.researched))
      = some cand)
    (hdup : isDuplicateTopic now
        (if cand.topicKey = "" then slugify cand.video.title "" else cand.topicKey)
        posts history = true) :
    ∀ c ∈ genStoreOf candidates (runGenerator true candidates posts history now today
        todayStr draft mapTags imagePool renderHtml),
      c.id = cand.id → c.status = Status.skipped := by
  rw [runGenerator_skip_eq candidates posts history now today todayStr draft
    mapTags imagePool renderHtml cand hfind hdup]
  intro c hc hcid
  simp only [genStoreOf, List.mem_map] at hc
  obtain ⟨x, hx, hfx⟩ := hc
  by_cases hxid : x.id = cand.id
  · rw [← hfx, skipUpdate, if_pos hxid]
  · rw [← hfx, skipUpdate, if_neg hxid] at hcid
    exact absurd hcid hxid

theorem runGenerator_notdup_attempts (candidates : List Candidate) (posts : List Post)
    (history : List TopicEntry) (now today : Int) (todayStr : String)
    (draft : Except String Article) (mapTags : List Tag → List Tag)
    (imagePool : List ArticleImage) (renderHtml : Article → Option SelectedImage → String)
    (cand : Candidate)
    (hfind : candidates.find? (fun item => decide (item.status = Status.researched))
      = some cand)
    (hdup : isDuplicateTopic now
        (if cand.topicKey = "" then slugify cand.video.title "" else cand.topicKey)
        posts history = false) :
    attemptsArticleGeneration (genOutcomeOf (runGenerator true candidates posts history
      now today todayStr draft mapTags imagePool renderHtml)) := by
  cases draft with
  | error msg => simp [runGenerator, hfind, hdup, genOutcomeOf, attemptsArticleGeneration]
  | ok article => simp [runGenerator, hfind, hdup, genOutcomeOf, attemptsArticleGeneration]

theorem runGenerator_notdup_store (candidates : List Candidate) (posts : List Post)
    (history : List TopicEntry) (now today : Int) (todayStr : String)
    (draft : Except String Article) (mapTags : List Tag → List Tag)
    (imagePool : List ArticleImage) (renderHtml : Article → Option SelectedImage → String)
    (cand : Candidate)
    (hfind : candidates.find? (fun item => decide (item.status = Status.researched))
      = some cand)
    (hdup : isDuplicateTopic now
        (if cand.topicKey = "" then slugify cand.video.title "" else cand.topicKey)
        posts history = false) :
    ∀ c ∈ genStoreOf candidates (runGenerator true candidates posts history now today
        todayStr draft mapTags imagePool renderHtml),
      c.id = cand.id → c.status ≠ Status.skipped := by
  cases draft with
  | error msg =>
    intro c hc hcid
    simp [runGenerator, hfind, hdup, genStoreOf] at hc
    obtain ⟨x, hx, hfx⟩ := hc
    by_cases hxid : x.id = cand.id
    · rw [← hfx, failUpdate, if_pos hxid]
      simp
    · rw [← hfx, failUpdate, if_neg hxid] at hcid
      exact absurd hcid hxid
  | ok article =>
    intro c hc hcid
    simp [runGenerator, hfind, hdup, genStoreOf] at hc
    obtain ⟨x, hx, hfx⟩ := hc
    by_cases hxid : x.id = cand.id
    · rw [← hfx]
      simp only [genUpdate, if_pos hxid]
      simp
    · rw [← hfx] at hcid
      simp only [genUpdate, if_neg hxid] at hcid
      exact absurd hcid hxid

theorem effTime_cond (e : TopicEntry) (cutoff : Int) :
    ((match entryEffectiveTime e with
      | some (some t) => decide (t ≥ cutoff)
      | _ => false) = true)
      ↔ ∃ t, entryEffectiveTime e = some (some t) ∧ cutoff ≤ t := by
  cases heff : entryEffectiveTime e with
  | none => simp
  | some v =>
    cases v with
    | none => simp
    | some t => simp [ge_iff_le]

theorem isDuplicateTopic_iff (now : Int) (K : String) (posts : List Post)
    (history : List TopicEntry) :
    isDuplicateTopic now K posts history = true
      ↔ ((∃ p ∈ posts, slugify p.title "" = K)
          ∨ ∃ e ∈ history, e.topicKey = K
              ∧ ∃ t, entryEffectiveTime e = some (some t)
                  ∧ now - (DEDUPE_WINDOW_DAYS : Int) * dayMs ≤ t) := by
  simp only [isDuplicateTopic]
  split_ifs with hp
  · simp only [true_iff]
    left
    rw [List.any_eq_true] at hp
    obtain ⟨p, hpmem, hps⟩ := hp
    exact ⟨p, hpmem, of_decide_eq_true hps⟩
  · rw [List.any_eq_true]
    constructor
    · rintro ⟨e, he, hcond⟩
      right
      rw [Bool.and_eq_true] at hcond
      obtain ⟨h1, h2⟩ := hcond
      exact ⟨e, he, of_decide_eq_true h1, (effTime_cond e _).mp h2⟩
    · rintro (⟨p, hpmem, hps⟩ | ⟨e, he, hek, t, heff, ht⟩)
      · exact absurd (List.any_eq_true.mpr ⟨p, hpmem, decide_eq_true hps⟩) hp
      · refine ⟨e, he, ?_⟩
        rw [Bool.and_eq_true]
        exact ⟨decide_eq_true hek, (effTime_cond e _).mpr ⟨t, heff, ht⟩⟩

/-! ## Claim C1 -/

/-- Claim C1: in the authoritative 4-stage Generator, when the selected
researched candidate has topic key `K`, no Post Record's slugified title
equals `K`, and the dedup window is the configured 5 days: a Topic History
entry for `K` last published 3 days before now forces the candidate to
`skipped`, while if every `K` entry was last published 10 days before now
the candidate is not skipped and proceeds to article generation. -/
theorem C1_dedup_window (candidates : List Candidate) (posts : List Post)
    (history : List TopicEntry) (now today : Int) (todayStr : String)
    (draft : Except String Article) (mapTags : List Tag → List Tag)
    (imagePool : List ArticleImage) (renderHtml : Article → Option SelectedImage → String)
    (cand : Candidate) (K : String)
    (hfind : candidates.find? (fun item => decide (item.status = Status.researched))
      = some cand)
    (hkey : cand.topicKey = K) (hK : K ≠ "")
    (hposts : ∀ p ∈ posts, slugify p.title "" ≠ K) :
    ((∃ e ∈ history, e.topicKey = K
        ∧ entryEffectiveTime e = some (some (now - 3 * dayMs))) →
      genOutcomeOf (runGenerator true candidates posts history now today todayStr draft
          mapTags imagePool renderHtml) = GenOutcome.skippedDuplicate cand.id
        ∧ ∀ c ∈ genStoreOf candidates (runGenerator true candidates posts history now
            today todayStr draft mapTags imagePool renderHtml),
            c.id = cand.id → c.status = Status.skipped)
    ∧ ((∀ e ∈ history, e.topicKey = K →
          entryEffectiveTime e = some (some (now - 10 * dayMs))) →
      attemptsArticleGeneration (genOutcomeOf (runGenerator true candidates posts history
          now today todayStr draft mapTags imagePool renderHtml))
        ∧ ∀ c ∈ genStoreOf candidates (runGenerator true candidates posts history now
            today todayStr draft mapTags imagePool renderHtml),
            c.id = cand.id → c.status ≠ Status.skipped) := by
  have hkeyEff : (if cand.topicKey = "" then slugify cand.video.title ""
      else cand.topicKey) = K := by
    rw [hkey, if_neg hK]
  constructor
  · rintro ⟨e, he, hek, heff⟩
    have hdup : isDuplicateTopic now
        (if cand.topicKey = "" then slugify cand.video.title "" else cand.topicKey)
        posts history = true := by
      rw [hkeyEff]
      apply (isDuplicateTopic_iff now K posts history).mpr
      right
      refine ⟨e, he, hek, now - 3 * dayMs, heff, ?_⟩
      simp only [DEDUPE_WINDOW_DAYS, dayMs]
      omega
    exact ⟨runGenerator_skip_outcome candidates posts history now today todayStr draft
        mapTags imagePool renderHtml cand hfind hdup,
      runGenerator_skip_store candidates posts history now today todayStr draft
        mapTags imagePool renderHtml cand hfind hdup⟩
  · intro hall
    have hdup : isDuplicateTopic now
        (if cand.topicKey = "" then slugify cand.video.title "" else cand.topicKey)
        posts history = false := by
      rw [hkeyEff]
      apply Bool.eq_false_iff.mpr
      intro hdup'
      rcases (isDuplicateTopic_iff now K posts history).mp hdup' with
        ⟨p, hp, hps⟩ | ⟨e, he, hek, t, heff, ht⟩
      · exact hposts p hp hps
      · rw [hall e he hek] at heff
        have ht' : now - 10 * dayMs = t := by
          injection heff with h1
          injection h1 with h2
        rw [← ht'] at ht
        revert ht
        simp only [DEDUPE_WINDOW_DAYS, dayMs]
        omega
    exact ⟨runGenerator_notdup_attempts candidates posts history now today todayStr draft
        mapTags imagePool renderHtml cand hfind hdup,
      runGenerator_notdup_store candidates posts history now today todayStr draft
        mapTags imagePool renderHtml cand hfind hdup⟩

/-- Witness for C1 at a concrete store, empty post list and a 3-day-old
history entry. -/
theorem C1_dedup_window_witness :
    ([researchedCandidate].find? (fun item => decide (item.status = Status.researched))
        = some researchedCandidate)
      ∧ researchedCandidate.topicKey = "gemini-3-launch"
      ∧ "gemini-3-launch" ≠ ""
      ∧ (∀ p ∈ ([] : List Post), slugify p.title "" ≠ "gemini-3-launch")
      ∧ (((∃ e ∈ [historyEntryDaysAgo 3], e.topicKey = "gemini-3-launch"
            ∧ entryEffectiveTime e = some (some (exNow - 3 * dayMs))) →
          genOutcomeOf (runGenerator true [researchedCandidate] [] [historyEntryDaysAgo 3]
              exNow exNow "2023-11-14" (Except.error "no draft") (fun tags => tags) []
              (fun _ _ => "")) = GenOutcome.skippedDuplicate researchedCandidate.id
            ∧ ∀ c ∈ genStoreOf [researchedCandidate] (runGenerator true [researchedCandidate]
                [] [historyEntryDaysAgo 3] exNow exNow "2023-11-14"
                (Except.error "no draft") (fun tags => tags) [] (fun _ _ => "")),
                c.id = researchedCandidate.id → c.status = Status.skipped)
        ∧ ((∀ e ∈ [historyEntryDaysAgo 3], e.topicKey = "gemini-3-launch" →
              entryEffectiveTime e = some (some (exNow - 10 * dayMs))) →
          attemptsArticleGeneration (genOutcomeOf (runGenerator true [researchedCandidate]
              [] [historyEntryDaysAgo 3] exNow exNow "2023-11-14"
              (Except.error "no draft") (fun tags => tags) [] (fun _ _ => "")))
            ∧ ∀ c ∈ genStoreOf [researchedCandidate] (runGenerator true [researchedCandidate]
                [] [historyEntryDaysAgo 3] exNow exNow "2023-11-14"
                (Except.error "no draft") (fun tags => tags) [] (fun _ _ => "")),
                c.id = researchedCandidate.id → c.status ≠ Status.skipped)) :=
  ⟨rfl, rfl, by decide, by simp,
   C1_dedup_window [researchedCandidate] [] [historyEntryDaysAgo 3] exNow exNow
     "2023-11-14" (Except.error "no draft") (fun tags => tags) [] (fun _ _ => "")
     researchedCandidate "gemini-3-launch" rfl rfl (by decide) (by simp)⟩

/-! ## Claim C2 -/

/-- Claim C2 (amended): the Generator marks the selected researched
candidate `skipped` exactly when its effective topic key matches the
slugified title of **any** Post Record — with no date window on the posts
side — or occurs within the trailing 5-day dedup window in the Topic
History.  (The frozen claim's dedup window on Post Record occurrences does
not exist in the source: the posts check ignores dates entirely, see the
counterexample.) -/
theorem C2_skip_characterization (candidates : List Candidate) (posts : List Post)
    (history : List TopicEntry) (now today : Int) (todayStr : String)
    (draft : Except String Article) (mapTags : List Tag → List Tag)
    (imagePool : List ArticleImage) (renderHtml : Article → Option SelectedImage → String)
    (cand : Candidate)
    (hfind : candidates.find? (fun item => decide (item.status = Status.researched))
      = some cand) :
    (genOutcomeOf (runGenerator true candidates posts history now today todayStr draft
        mapTags imagePool renderHtml) = GenOutcome.skippedDuplicate cand.id)
      ↔ ((∃ p ∈ posts, slugify p.title ""
            = (if cand.topicKey = "" then slugify cand.video.title "" else cand.topicKey))
          ∨ ∃ e ∈ history,
              e.topicKey
                  = (if cand.topicKey = "" then slugify cand.video.title ""
                     else cand.topicKey)
                ∧ ∃ t, entryEffectiveTime e = some (some t)
                    ∧ now - (DEDUPE_WINDOW_DAYS : Int) * dayMs ≤ t) := by
  by_cases hdup : isDuplicateTopic now
      (if cand.topicKey = "" then slugify cand.video.title "" else cand.topicKey)
      posts history = true
  · constructor
    · intro _
      exact (isDuplicateTopic_iff now _ posts history).mp hdup
    · intro _
      exact runGenerator_skip_outcome candidates posts history now today todayStr draft
        mapTags imagePool renderHtml cand hfind hdup
  · have hdupf : isDuplicateTopic now
        (if cand.topicKey = "" then slugify cand.video.title "" else cand.topicKey)
        posts history = false := Bool.eq_false_iff.mpr hdup
    constructor
    · intro h1
      exfalso
      have hatt := runGenerator_notdup_attempts candidates posts history now today todayStr
        draft mapTags imagePool renderHtml cand hfind hdupf
      rw [h1] at hatt
      exact hatt
    · intro hcond
      exact absurd ((isDuplicateTopic_iff now _ posts history).mpr hcond) hdup

/-- Counterexample for C2 as frozen: with an empty Topic History and one
Post Record published 10 days before now (far outside the 5-day dedup
window) whose slugified title equals the candidate's topic key, the
Generator still marks the candidate `skipped`. -/
theorem C2_stale_post_counterexample :
    genOutcomeOf (runGenerator true [researchedCandidate] [oldPost] [] exNow exNow
        "2023-11-14" (Except.error "no draft") (fun tags => tags) [] (fun _ _ => ""))
      = GenOutcome.skippedDuplicate "yt-v0"
      ∧ oldPost.publishedAt = some (exNow - 10 * dayMs)
      ∧ oldPost.date = exNow - 10 * dayMs := by
  have hfind : [researchedCandidate].find?
      (fun item => decide (item.status = Status.researched))
      = some researchedCandidate := by decide
  have hkeyEff : (if researchedCandidate.topicKey = ""
      then slugify researchedCandidate.video.title ""
      else researchedCandidate.topicKey) = "gemini-3-launch" := by
    rw [if_neg (by decide)]
    rfl
  have hdup : isDuplicateTopic exNow
      (if researchedCandidate.topicKey = ""
       then slugify researchedCandidate.video.title ""
       else researchedCandidate.topicKey) [oldPost] [] = true := by
    rw [hkeyEff]
    decide
  have h := runGenerator_skip_outcome [researchedCandidate] [oldPost] [] exNow exNow
    "2023-11-14" (Except.error "no draft") (fun tags => tags) [] (fun _ _ => "")
    researchedCandidate hfind hdup
  exact ⟨h, rfl, rfl⟩

/-- Witness for C2 at a concrete input (a fresh-topic run, where the
characterization gives no skip). -/
theorem C2_skip_characterization_witness :
    ([researchedCandidate].find? (fun item => decide (item.status = Status.researched))
        = some researchedCandidate)
      ∧ ((genOutcomeOf (runGenerator true [researchedCandidate] [] [] exNow exNow
            "2023-11-14" (Except.error "no draft") (fun tags => tags) [] (fun _ _ => ""))
          = GenOutcome.skippedDuplicate researchedCandidate.id)
        ↔ ((∃ p ∈ ([] : List Post), slugify p.title ""
              = (if researchedCandidate.topicKey = ""
                 then slugify researchedCandidate.video.title ""
                 else researchedCandidate.topicKey))
            ∨ ∃ e ∈ ([] : List TopicEntry),
                e.topicKey
                    = (if researchedCandidate.topicKey = ""
                       then slugify researchedCandidate.video.title ""
                       else researchedCandidate.topicKey)
                  ∧ ∃ t, entryEffectiveTime e = some (some t)
                      ∧ exNow - (DEDUPE_WINDOW_DAYS : Int) * dayMs ≤ t)) :=
  ⟨rfl,
   C2_skip_characterization [researchedCandidate] [] [] exNow exNow "2023-11-14"
     (Except.error "no draft") (fun tags => tags) [] (fun _ _ => "")
     researchedCandidate rfl⟩

/-! ## Claim C6 -/

theorem pairwise_take_drop {α : Type} {r : α → α → Prop} {s : List α}
    (hp : List.Pairwise r s) (n : Nat) {x y : α}
    (hx : x ∈ s.take n) (hy : y ∈ s.drop n) : r x y := by
  have hsplit := List.take_append_drop n s
  rw [← hsplit] at hp
  exact (List.pairwise_append.mp hp).2.2 x hx y hy

/-- Claim C6: with `MAX_PENDING_CANDIDATES = 30`, if 40 active
(`collected`/`researched`) candidates exist before the cap, then after the
cap exactly 30 active candidates survive, every survivor was created no
earlier than every dropped active candidate (the 30 most recent
`createdAt` survive), and candidates in other statuses are not removed by
the cap. -/
theorem C6_cap_enforcement (l : List Candidate)
    (h40 : (l.filter (fun c => isActiveStatus c.status)).length = 40) :
    ((capPending l).filter (fun c => isActiveStatus c.status)).length = 30
      ∧ (∀ x ∈ capPending l, isActiveStatus x.status = true →
           ∀ y ∈ l, isActiveStatus y.status = true → y ∉ capPending l →
             y.createdAt ≤ x.createdAt)
      ∧ (∀ c ∈ l, isActiveStatus c.status = false → c ∈ capPending l) := by
  have hgt : MAX_PENDING_CANDIDATES
      < (l.filter (fun c => isActiveStatus c.status)).length := by
    rw [h40]; norm_num [MAX_PENDING_CANDIDATES]
  have hcap : capPending l
      = ((l.filter (fun c => ! isActiveStatus c.status))
          ++ ((l.filter (fun c => isActiveStatus c.status)).insertionSort
                createdDesc).take MAX_PENDING_CANDIDATES).insertionSort
            candidateVideoDesc := by
    simp only [capPending]
    rw [if_pos hgt]
  have hSperm := List.perm_insertionSort createdDesc
    (l.filter (fun c => isActiveStatus c.status))
  have hsorted := List.sorted_insertionSort createdDesc
    (l.filter (fun c => isActiveStatus c.status))
  have hperm : List.Perm (capPending l)
      ((l.filter (fun c => ! isActiveStatus c.status))
          ++ ((l.filter (fun c => isActiveStatus c.status)).insertionSort
                createdDesc).take MAX_PENDING_CANDIDATES) := by
    rw [hcap]
    exact List.perm_insertionSort _ _
  have hSlen : ((l.filter (fun c => isActiveStatus c.status)).insertionSort
      createdDesc).length = 40 := by
    rw [hSperm.length_eq, h40]
  have hTlen : (((l.filter (fun c => isActiveStatus c.status)).insertionSort
      createdDesc).take MAX_PENDING_CANDIDATES).length = 30 := by
    rw [List.length_take, hSlen]
    decide
  have hactiveT : ∀ x ∈ ((l.filter (fun c => isActiveStatus c.status)).insertionSort
      createdDesc).take MAX_PENDING_CANDIDATES, isActiveStatus x.status = true := by
    intro x hx
    have hxS := List.mem_of_mem_take hx
    have hxA := hSperm.mem_iff.mp hxS
    exact (List.mem_filter.mp hxA).2
  have hinactiveP : ∀ x ∈ l.filter (fun c => ! isActiveStatus c.status),
      isActiveStatus x.status = false := by
    intro x hx
    have h := (List.mem_filter.mp hx).2
    simpa using h
  refine ⟨?_, ?_, ?_⟩
  · rw [← List.countP_eq_length_filter, hperm.countP_eq, List.countP_append]
    have hPzero : (l.filter (fun c => ! isActiveStatus c.status)).countP
        (fun c => isActiveStatus c.status) = 0 := by
      rw [List.countP_eq_zero]
      intro a ha
      simp [hinactiveP a ha]
    have hTall : (((l.filter (fun c => isActiveStatus c.status)).insertionSort
        createdDesc).take MAX_PENDING_CANDIDATES).countP
          (fun c => isActiveStatus c.status)
        = (((l.filter (fun c => isActiveStatus c.status)).insertionSort
            createdDesc).take MAX_PENDING_CANDIDATES).length := by
      rw [List.countP_eq_length]
      intro a ha
      simp [hactiveT a ha]
    rw [hPzero, hTall, hTlen]
  · intro x hx hxact y hy hyact hynot
    have hxPT := hperm.mem_iff.mp hx
    rcases List.mem_append.mp hxPT with hxP | hxT
    · exact absurd hxact (by simp [hinactiveP x hxP])
    · have hyA : y ∈ l.filter (fun c => isActiveStatus c.status) :=
        List.mem_filter.mpr ⟨hy, hyact⟩
      have hyS : y ∈ (l.filter (fun c => isActiveStatus c.status)).insertionSort
          createdDesc := hSperm.mem_iff.mpr hyA
      have hyT : y ∉ ((l.filter (fun c => isActiveStatus c.status)).insertionSort
          createdDesc).take MAX_PENDING_CANDIDATES := by
        intro hyT
        exact hynot (hperm.mem_iff.mpr (List.mem_append.mpr (Or.inr hyT)))
      have hyD : y ∈ ((l.filter (fun c => isActiveStatus c.status)).insertionSort
          createdDesc).drop MAX_PENDING_CANDIDATES := by
        have := List.take_append_drop MAX_PENDING_CANDIDATES
          ((l.filter (fun c => isActiveStatus c.status)).insertionSort createdDesc)
        rw [← this] at hyS
        rcases List.mem_append.mp hyS with h | h
        · exact absurd h hyT
        · exact h
      exact pairwise_take_drop hsorted MAX_PENDING_CANDIDATES hxT hyD
  · intro c hc hcin
    have hcP : c ∈ l.filter (fun c => ! isActiveStatus c.status) :=
      List.mem_filter.mpr ⟨hc, by simp [hcin]⟩
    exact hperm.mem_iff.mpr (List.mem_append.mpr (Or.inl hcP))

/-- Witness for C6 at a concrete store of 40 active candidates. -/
theorem C6_cap_witness :
    ((c6List.filter (fun c => isActiveStatus c.status)).length = 40)
      ∧ (((capPending c6List).filter (fun c => isActiveStatus c.status)).length = 30
          ∧ (∀ x ∈ capPending c6List, isActiveStatus x.status = true →
               ∀ y ∈ c6List, isActiveStatus y.status = true → y ∉ capPending c6List →
                 y.createdAt ≤ x.createdAt)
          ∧ (∀ c ∈ c6List, isActiveStatus c.status = false → c ∈ capPending c6List)) :=
  ⟨by decide, C6_cap_enforcement c6List (by decide)⟩

/-! ## Claim C9 -/

/-- Claim C9: `selectArticleImage` called twice with identical inputs
returns the same image, and changing only `article.summary` (tags, titles,
slug, topicKey, source focus and candidate id unchanged) leaves the
selected image unchanged. -/
theorem C9_selectImage_summary_independent (pool : List ArticleImage)
    (article : Article) (candidate : Candidate) (s : String) :
    (selectArticleImage pool article candidate
        = selectArticleImage pool article candidate)
      ∧ selectArticleImage pool { article with summary := s } candidate
        = selectArticleImage pool article candidate :=
  ⟨rfl, rfl⟩

/-! ## Claim C5 -/

theorem statusStep_refl (s : Status) : statusStep s s = true := by
  cases s <;> rfl

theorem addVideosForChannel_append (src : Source) (now : Int) :
    ∀ (videos : List Video) (acc : List Candidate) (added newCount : Nat),
      ∃ ext, (addVideosForChannel src now videos acc added newCount).1 = acc ++ ext := by
  intro videos
  induction videos with
  | nil =>
    intro acc added n
    exact ⟨[], by simp [addVideosForChannel]⟩
  | cons v rest ih =>
    intro acc added n
    simp only [addVideosForChannel]
    split_ifs with h1 h2
    · exact ⟨[], by simp⟩
    · exact ih acc added n
    · obtain ⟨ext, hext⟩ := ih (acc ++ [mkCollectedCandidate src v now]) (added + 1) (n + 1)
      exact ⟨[mkCollectedCandidate src v now] ++ ext, by rw [hext, List.append_assoc]⟩

theorem addVideosForChannel_mem (src : Source) (now : Int) :
    ∀ (videos : List Video) (acc : List Candidate) (added newCount : Nat),
      ∀ x ∈ (addVideosForChannel src now videos acc added newCount).1,
        x ∈ acc ∨ (x.status = Status.collected ∧ x.id ∉ acc.map Candidate.id) := by
  intro videos
  induction videos with
  | nil =>
    intro acc added n x hx
    exact Or.inl hx
  | cons v rest ih =>
    intro acc added n x hx
    simp only [addVideosForChannel] at hx
    split_ifs at hx with h1 h2
    · exact Or.inl hx
    · exact ih acc added n x hx
    · rcases ih _ _ _ x hx with hmem | ⟨hstat, hid⟩
      · rcases List.mem_append.mp hmem with h | h
        · exact Or.inl h
        · simp only [List.mem_singleton] at h
          subst h
          refine Or.inr ⟨rfl, ?_⟩
          intro hmem2
          rw [List.mem_map] at hmem2
          obtain ⟨c, hc, hcid⟩ := hmem2
          apply h2
          rw [List.any_eq_true]
          exact ⟨c, hc, by simp [hcid, mkCollectedCandidate]⟩
      · refine Or.inr ⟨hstat, ?_⟩
        intro hmem2
        apply hid
        rw [List.map_append]
        exact List.mem_append.mpr (Or.inl hmem2)

theorem collectSources_mem (now : Int) :
    ∀ (srcs : List (Source × FetchResult)) (acc : List Candidate)
      (errors : List CollectorError) (n : Nat),
      ∀ x ∈ (collectSources now srcs acc errors n).1,
        x ∈ acc ∨ (x.status = Status.collected ∧ x.id ∉ acc.map Candidate.id) := by
  intro srcs
  induction srcs with
  | nil =>
    intro acc errors n x hx
    exact Or.inl hx
  | cons p rest ih =>
    intro acc errors n x hx
    obtain ⟨src, fetch⟩ := p
    cases hch : src.channelId with
    | none =>
      simp only [collectSources, hch] at hx
      exact ih _ _ _ x hx
    | some cid =>
      cases fetch with
      | quotaSkip =>
        simp only [collectSources, hch] at hx
        exact ih _ _ _ x hx
      | apiError msg =>
        simp only [collectSources, hch] at hx
        exact ih _ _ _ x hx
      | ok videos =>
        simp only [collectSources, hch] at hx
        rcases ih _ _ _ x hx with hmem | ⟨hstat, hid⟩
        · rcases addVideosForChannel_mem src now _ acc 0 n x hmem with h | ⟨hs, hi⟩
          · exact Or.inl h
          · exact Or.inr ⟨hs, hi⟩
        · refine Or.inr ⟨hstat, ?_⟩
          intro hmem2
          apply hid
          obtain ⟨ext, hext⟩ := addVideosForChannel_append src now
            ((videos.filter (fun v => withinWindow now v.publishedAt)).insertionSort
              videoDesc) acc 0 n
          rw [hext, List.map_append]
          exact List.mem_append.mpr (Or.inl hmem2)

theorem mem_cleanupProcessed (now : Int) (l : List Candidate) :
    ∀ x ∈ cleanupProcessed now l, x ∈ l := by
  intro x hx
  exact (List.mem_filter.mp hx).1

theorem mem_capPending (l : List Candidate) : ∀ x ∈ capPending l, x ∈ l := by
  intro x hx
  simp only [capPending] at hx
  split_ifs at hx with h
  · have hx2 := (List.perm_insertionSort candidateVideoDesc _).mem_iff.mp hx
    rcases List.mem_append.mp hx2 with h2 | h2
    · exact (List.mem_filter.mp h2).1
    · have h3 := List.mem_of_mem_take h2
      have h4 := (List.perm_insertionSort createdDesc _).mem_iff.mp h3
      exact (List.mem_filter.mp h4).1
  · exact hx

theorem nodup_id_eq {l : List Candidate} (hnodup : (l.map Candidate.id).Nodup)
    {c c2 : Candidate} (hc : c ∈ l) (hc2 : c2 ∈ l) (hid : c2.id = c.id) : c2 = c :=
  List.inj_on_of_nodup_map hnodup hc2 hc hid

/-- The collector never changes an existing candidate: every store entry
after a successful run is either an untouched existing candidate or a
freshly inserted `collected` one with a new id. -/
theorem runCollector_statusStep (sources : List (Source × FetchResult))
    (existing : List Candidate) (now : Int)
    (store : List Candidate) (result : CollectorResult)
    (hnodup : (existing.map Candidate.id).Nodup)
    (hrun : runCollector true sources existing now = Except.ok (store, result)) :
    ∀ c ∈ existing, ∀ c2 ∈ store, c2.id = c.id →
      statusStep c.status c2.status = true := by
  intro c hc c2 hc2 hid
  by_cases hne : sources.isEmpty
  · simp [runCollector, hne] at hrun
  · simp only [runCollector, hne, not_true, Bool.not_true, Bool.false_eq_true,
      if_false, Except.ok.injEq, Prod.mk.injEq] at hrun
    rw [← hrun.1] at hc2
    have hcap := mem_capPending _ c2 hc2
    have hclean := mem_cleanupProcessed now _ c2 hcap
    have hsort := (List.perm_insertionSort candidateVideoDesc _).mem_iff.mp hclean
    rcases collectSources_mem now _ existing [] 0 c2 hsort with hmem | ⟨_, hidnew⟩
    · rw [nodup_id_eq hnodup hc hmem hid]
      exact statusStep_refl _
    · exact absurd (List.mem_map.mpr ⟨c, hc, hid.symm⟩) (by exact fun h => hidnew h)

theorem forall₂_set {α β : Type} {R : α → β → Prop} {l1 : List α} {l2 : List β}
    (h : List.Forall₂ R l1 l2) :
    ∀ (i : Nat) (b : β),
      (∀ (ha : i < l1.length), R (l1.get ⟨i, ha⟩) b) →
      List.Forall₂ R l1 (l2.set i b) := by
  induction h with
  | nil =>
    intro i b _
    exact List.Forall₂.nil
  | cons hR htail ih =>
    intro i b hb
    cases i with
    | zero =>
      exact List.Forall₂.cons (hb (Nat.zero_lt_succ _)) htail
    | succ n =>
      refine List.Forall₂.cons hR (ih n b ?_)
      intro ha
      exact hb (Nat.succ_lt_succ ha)

theorem findIdx?_spec {α : Type} (p : α → Bool) (l : List α) (i : Nat)
    (h : l.findIdx? p = some i) :
    ∃ hlt : i < l.length, p (l.get ⟨i, hlt⟩) = true := by
  obtain ⟨hlt, hp, _⟩ := List.findIdx?_eq_some_iff_getElem.mp h
  exact ⟨hlt, hp⟩

theorem evolved_refl : ∀ l : List Candidate, List.Forall₂ evolvedPair l l := by
  intro l
  induction l with
  | nil => exact List.Forall₂.nil
  | cons a t ih => exact List.Forall₂.cons ⟨rfl, statusStep_refl _⟩ ih

theorem researcherStep_evolves (research : Candidate → ResearchData) (now : Int)
    (orig : List Candidate) (hnodup : (orig.map Candidate.id).Nodup)
    (st : List Candidate) (hst : List.Forall₂ evolvedPair orig st)
    (c : Candidate) (hc : c ∈ orig) (hcs : c.status = Status.collected) :
    List.Forall₂ evolvedPair orig (researcherStep research now st c) := by
  unfold researcherStep
  cases hidx : st.findIdx? (fun x => decide (x.id = c.id)) with
  | none => exact hst
  | some i =>
    obtain ⟨hlt, hpi⟩ := findIdx?_spec _ st i hidx
    apply forall₂_set hst i
    intro ha
    have hpair := (List.forall₂_iff_get.mp hst).2 i ha hlt
    have hidi : (st.get ⟨i, hlt⟩).id = c.id := of_decide_eq_true hpi
    have horig : (orig.get ⟨i, ha⟩) = c := by
      apply nodup_id_eq hnodup hc (List.get_mem orig i ha)
      rw [← hpair.1, hidi]
    constructor
    · rw [horig]
      rfl
    · rw [horig, hcs]
      rfl

theorem foldl_researcherStep_evolves (research : Candidate → ResearchData) (now : Int)
    (orig : List Candidate) (hnodup : (orig.map Candidate.id).Nodup) :
    ∀ (work : List Candidate) (st : List Candidate),
      (∀ c ∈ work, c ∈ orig ∧ c.status = Status.collected) →
      List.Forall₂ evolvedPair orig st →
      List.Forall₂ evolvedPair orig (work.foldl (researcherStep research now) st) := by
  intro work
  induction work with
  | nil =>
    intro st _ hst
    exact hst
  | cons c work ih =>
    intro st hwork hst
    simp only [List.foldl_cons]
    refine ih _ (fun d hd => hwork d (List.mem_cons_of_mem c hd)) ?_
    exact researcherStep_evolves research now orig hnodup st hst c
      (hwork c (List.mem_cons_self c work)).1 (hwork c (List.mem_cons_self c work)).2

theorem forall₂_statusStep (orig result : List Candidate)
    (hnodup : (orig.map Candidate.id).Nodup)
    (hf : List.Forall₂ evolvedPair orig result) :
    ∀ c ∈ orig, ∀ c2 ∈ result, c2.id = c.id →
      statusStep c.status c2.status = true := by
  intro c hc c2 hc2 hid
  obtain ⟨⟨k, hk⟩, hck⟩ := List.mem_iff_get.mp hc2
  have hlen := hf.length_eq
  have hk2 : k < orig.length := by omega
  have hpair := (List.forall₂_iff_get.mp hf).2 k hk2 hk
  have horig : orig.get ⟨k, hk2⟩ = c := by
    apply nodup_id_eq hnodup hc (List.get_mem orig k hk2)
    rw [← hpair.1, hck, hid]
  have hss := hpair.2
  rw [horig, hck] at hss
  exact hss

/-- The Researcher's store pass only moves candidates from `collected` to
`researched`. -/
theorem runResearcherStore_statusStep (research : Candidate → ResearchData) (now : Int)
    (candidates : List Candidate)
    (hnodup : (candidates.map Candidate.id).Nodup) :
    ∀ c ∈ candidates, ∀ c2 ∈ runResearcherStore research now candidates,
      c2.id = c.id → statusStep c.status c2.status = true := by
  apply forall₂_statusStep candidates _ hnodup
  apply foldl_researcherStep_evolves research now candidates hnodup
  · intro d hd
    have h2 := List.mem_filter.mp hd
    exact ⟨h2.1, of_decide_eq_true h2.2⟩
  · exact evolved_refl candidates

theorem map_update_statusStep (candidates : List Candidate) (cand : Candidate)
    (hnodup : (candidates.map Candidate.id).Nodup)
    (hcand : cand ∈ candidates) (hstat : cand.status = Status.researched)
    (f : Candidate → Candidate)
    (hfneq : ∀ x, ¬ x.id = cand.id → f x = x)
    (hfid : ∀ x, x.id = cand.id → (f x).id = x.id)
    (hfstat : ∀ x, x.id = cand.id → statusStep Status.researched (f x).status = true) :
    ∀ c ∈ candidates, ∀ c2 ∈ candidates.map f, c2.id = c.id →
      statusStep c.status c2.status = true := by
  intro c hc c2 hc2 hid
  rw [List.mem_map] at hc2
  obtain ⟨x, hx, hfx⟩ := hc2
  by_cases hxid : x.id = cand.id
  · have hcx : c = cand := by
      apply nodup_id_eq hnodup hcand hc
      rw [← hid, ← hfx, hfid x hxid, hxid]
    rw [hcx, hstat, ← hfx]
    exact hfstat x hxid
  · rw [hfneq x hxid] at hfx
    rw [nodup_id_eq hnodup hc (hfx ▸ hx) hid]
    exact statusStep_refl _

/-- The Generator's store update only moves the selected researched
candidate forward (to `skipped`, `failed` or `generated`). -/
theorem runGenerator_statusStep (candidates : List Candidate) (posts : List Post)
    (history : List TopicEntry) (now today : Int) (todayStr : String)
    (draft : Except String Article) (mapTags : List Tag → List Tag)
    (imagePool : List ArticleImage) (renderHtml : Article → Option SelectedImage → String)
    (hnodup : (candidates.map Candidate.id).Nodup) :
    ∀ c ∈ candidates,
      ∀ c2 ∈ genStoreOf candidates (runGenerator true candidates posts history now today
          todayStr draft mapTags imagePool renderHtml),
        c2.id = c.id → statusStep c.status c2.status = true := by
  intro c hc c2 hc2 hid
  cases hfind : candidates.find? (fun item => decide (item.status = Status.researched)) with
  | none =>
    simp only [runGenerator, hfind, genStoreOf, Bool.not_true, Bool.false_eq_true,
      if_false] at hc2
    rw [nodup_id_eq hnodup hc hc2 hid]
    exact statusStep_refl _
  | some cand =>
    have hcmem : cand ∈ candidates := List.mem_of_find?_eq_some hfind
    have hcstat : cand.status = Status.researched := by
      simpa using List.find?_some hfind
    by_cases hdup : isDuplicateTopic now
        (if cand.topicKey = "" then slugify cand.video.title "" else cand.topicKey)
        posts history = true
    · rw [runGenerator_skip_eq candidates posts history now today todayStr draft
        mapTags imagePool renderHtml cand hfind hdup] at hc2
      refine map_update_statusStep candidates cand hnodup hcmem hcstat _ ?_ ?_ ?_
        c hc c2 hc2 hid
      · intro x hxid
        simp [skipUpdate, hxid]
      · intro x hxid
        simp [skipUpdate, hxid]
      · intro x hxid
        simp [skipUpdate, hxid]
        rfl
    · have hdupf : isDuplicateTopic now
          (if cand.topicKey = "" then slugify cand.video.title "" else cand.topicKey)
          posts history = false := Bool.eq_false_iff.mpr hdup
      cases draft with
      | error msg =>
        simp only [runGenerator, hfind, hdupf, genStoreOf, Bool.not_true,
          Bool.false_eq_true, if_false] at hc2
        refine map_update_statusStep candidates cand hnodup hcmem hcstat _ ?_ ?_ ?_
          c hc c2 hc2 hid
        · intro x hxid
          simp [failUpdate, hxid]
        · intro x hxid
          simp [failUpdate, hxid]
        · intro x hxid
          simp [failUpdate, hxid]
          rfl
      | ok article =>
        simp only [runGenerator, hfind, hdupf, genStoreOf, Bool.not_true,
          Bool.false_eq_true, if_false] at hc2
        refine map_update_statusStep candidates cand hnodup hcmem hcstat _ ?_ ?_ ?_
          c hc c2 hc2 hid
        · intro x hxid
          simp [genUpdate, hxid]
        · intro x hxid
          simp [genUpdate, hxid]
        · intro x hxid
          simp [genUpdate, hxid]
          rfl

/-- Claim C5: for every candidate and every store-mutating stage operation
(Collector run, Researcher store pass, Generator store update, each over a
store with unique candidate ids), a candidate's status only moves along
`collected → researched → generated → published` or laterally to
`skipped`/`failed` from `collected`/`researched`; no operation moves a
status backwards. -/
theorem C5_status_monotonic :
    (∀ (sources : List (Source × FetchResult)) (existing : List Candidate) (now : Int)
        (store : List Candidate) (result : CollectorResult),
        (existing.map Candidate.id).Nodup →
        runCollector true sources existing now = Except.ok (store, result) →
        ∀ c ∈ existing, ∀ c2 ∈ store, c2.id = c.id →
          statusStep c.status c2.status = true)
    ∧ (∀ (research : Candidate → ResearchData) (now : Int)
          (candidates : List Candidate),
        (candidates.map Candidate.id).Nodup →
        ∀ c ∈ candidates, ∀ c2 ∈ runResearcherStore research now candidates,
          c2.id = c.id → statusStep c.status c2.status = true)
    ∧ (∀ (candidates : List Candidate) (posts : List Post) (history : List TopicEntry)
          (now today : Int) (todayStr : String) (draft : Except String Article)
          (mapTags : List Tag → List Tag) (imagePool : List ArticleImage)
          (renderHtml : Article → Option SelectedImage → String),
        (candidates.map Candidate.id).Nodup →
        ∀ c ∈ candidates,
          ∀ c2 ∈ genStoreOf candidates (runGenerator true candidates posts history now
              today todayStr draft mapTags imagePool renderHtml),
            c2.id = c.id → statusStep c.status c2.status = true) :=
  ⟨fun sources existing now store result hnodup hrun =>
      runCollector_statusStep sources existing now store result hnodup hrun,
   fun research now candidates hnodup =>
      runResearcherStore_statusStep research now candidates hnodup,
   fun candidates posts history now today todayStr draft mapTags imagePool renderHtml
        hnodup =>
      runGenerator_statusStep candidates posts history now today todayStr draft mapTags
        imagePool renderHtml hnodup⟩

/-- Witness for C5 (researcher part) at a concrete one-candidate store. -/
theorem C5_status_monotonic_witness :
    (([baseCandidate].map Candidate.id).Nodup)
      ∧ (∀ c ∈ [baseCandidate], ∀ c2 ∈ runResearcherStore exResearch 0 [baseCandidate],
          c2.id = c.id → statusStep c.status c2.status = true) :=
  ⟨by decide,
   C5_status_monotonic.2.1 exResearch 0 [baseCandidate] (by decide)⟩

end AISite
